import Mathlib

/-!
Shallow embedding of the tokenator Figma plugin (benlister/tokenator).

The repository is a design-token linter/fixer for a design tool: it
aggregates "variables" (design tokens) from the local document and from
external libraries, classifies them into spacing / border-radius tokens by
name heuristics, walks the visual node tree emitting "issues" for
hard-coded spacing and radius values, and can bind or revert such values.

Pixel values (paddings, radii, token values) are JS numbers; we model them
as rationals (ℚ), which keeps equality and order decidable.  Host-side
asynchronous effects (reading the variable stores, setting a binding) are
modelled by passing their observable outcomes as explicit arguments.
-/

/-- Case-insensitive prefix test on character lists (model of the literal
parts of the JS regexes used for name classification). -/
def startsWithChars : List Char → List Char → Bool
  | [], _ => true
  | _ :: _, [] => false
  | p :: ps, h :: hs => p == h && startsWithChars ps hs

/-- Substring test on character lists. -/
def hasSubChars (pat : List Char) : List Char → Bool
  | [] => startsWithChars pat []
  | h :: rest => startsWithChars pat (h :: rest) || hasSubChars pat rest

/-- The remainder of the haystack after the first occurrence of `pat`
(used for the `border.*radius` regex branch). -/
def afterFirstChars (pat : List Char) : List Char → Option (List Char)
  | [] => if pat.isEmpty then some [] else none
  | h :: rest =>
    if startsWithChars pat (h :: rest) then some ((h :: rest).drop pat.length)
    else afterFirstChars pat rest

/-- ASCII lowercase of one character (model of JS case-insensitive
matching). -/
def lowerChar (c : Char) : Char :=
  if 65 ≤ c.toNat ∧ c.toNat ≤ 90 then Char.ofNat (c.toNat + 32) else c

/-- The characters of a string, lowercased. -/
def lowerChars (s : String) : List Char :=
  s.data.map lowerChar

/-- Case-insensitive substring containment, modelling a case-insensitive
regex test for a literal pattern. -/
def containsCI (s pat : String) : Bool :=
  hasSubChars (lowerChars pat) (lowerChars s)

/-- The spacing name heuristic of `getSpacingVariables`: a case-insensitive
test of the regex `space|spacing|gap|padding|margin|size|grid`. -/
def isSpacingName (name : String) : Bool :=
  containsCI name "space" || containsCI name "spacing" || containsCI name "gap" ||
  containsCI name "padding" || containsCI name "margin" || containsCI name "size" ||
  containsCI name "grid"

/-- The `border.*radius` branch of the radius regex: an occurrence of
"border" followed later by "radius" (extensionally subsumed by the plain
"radius" branch, kept for fidelity). -/
def borderThenRadius (name : String) : Bool :=
  match afterFirstChars (lowerChars "border") (lowerChars name) with
  | some rest => hasSubChars (lowerChars "radius") rest
  | none => false

/-- The border-radius name heuristic of `getBorderRadiusVariables`: a
case-insensitive test of the regex `radius|corner|rounded|border.*radius|br-`
(the last alternative is the three characters b, r, hyphen). -/
def isBorderRadiusName (name : String) : Bool :=
  containsCI name "radius" || containsCI name "corner" || containsCI name "rounded" ||
  borderThenRadius name || containsCI name "br-"

/-- Model of `Variable.resolvedType` in the Figma plugin API. -/
inductive VarResolvedType where
  | FLOAT
  | COLOR
  | STRING
  | BOOLEAN
deriving DecidableEq, Repr

/-- A value stored in a variable mode: a JS number, or anything else
(color/string/boolean/alias), which the classifier skips. -/
inductive VarValue where
  | num (q : ℚ)
  | nonNum
deriving DecidableEq, Repr

/-- A resolved design variable (`Variable` in the plugin API): the fields
the tokenator reads.  `valuesByMode` keeps the host's key iteration
order, so the head is "the first mode". -/
structure Variable where
  id : String
  key : String
  name : String
  resolvedType : VarResolvedType
  valuesByMode : List (String × VarValue)
  variableCollectionId : String
deriving DecidableEq, Repr

/-- A library variable stub as returned by
`getVariablesInLibraryCollectionAsync`: only `key` and `name` are read
before import. -/
structure LibStub where
  key : String
  name : String
deriving DecidableEq, Repr

/-- Model of `SpacingToken` from `src/code.ts` (the dist border-radius tokens share
the same record shape). -/
structure SpacingToken where
  id : String
  key : String
  name : String
  value : ℚ
  variableObject : Variable
deriving DecidableEq, Repr

/-- The classification step shared by `getSpacingVariables` and
`getBorderRadiusVariables`: skip non-FLOAT variables, skip variables not in
the requested collection (dist variants only; the ts variant passes no
filter), skip variables with zero modes, take the first mode's value, keep
it when it is a non-negative number and the name matches the category
heuristic. -/
def tokenOfVariable (isCategoryName : String → Bool)
    (filterByCollectionId : Option String) (v : Variable) : Option SpacingToken :=
  if v.resolvedType ≠ VarResolvedType.FLOAT then none
  else if (match filterByCollectionId with
           | some cid => decide (v.variableCollectionId ≠ cid)
           | none => false) = true then none
  else match v.valuesByMode with
  | [] => none
  | (_, value) :: _ =>
    match value with
    | VarValue.num q =>
      if 0 ≤ q ∧ isCategoryName v.name = true then
        some { id := v.id, key := v.key, name := v.name, value := q, variableObject := v }
      else none
    | VarValue.nonNum => none

/-- The spacing-token list built by `getSpacingVariables` from the
aggregated variable universe. -/
def spacingTokensOf (filterByCollectionId : Option String) (vars : List Variable) :
    List SpacingToken :=
  vars.filterMap (tokenOfVariable isSpacingName filterByCollectionId)

/-- The border-radius-token list built by `getBorderRadiusVariables`. -/
def borderRadiusTokensOf (filterByCollectionId : Option String) (vars : List Variable) :
    List SpacingToken :=
  vars.filterMap (tokenOfVariable isBorderRadiusName filterByCollectionId)

/-! ## Token Source Aggregator (`getAllVariablesAndImportLibraries`) -/

/-- Model of `processedVariableKeys.has(k)` — whether a record with natural key `k`
was already collected (the code keeps the key set in lockstep with the
output list, so the set is exactly the keys of the accumulator). -/
def hasKey (acc : List Variable) (k : String) : Bool :=
  acc.any (fun w => decide (w.key = k))

/-- Push a variable onto the output iff its key is unseen
(`if (!processedVariableKeys.has(v.key)) { allVariables.push(v); ... }`). -/
def insertIfNewKey (acc : List Variable) (v : Variable) : List Variable :=
  if hasKey acc v.key then acc else acc ++ [v]

/-- Processing of one (name-relevant) library stub: skip when its key was
seen; otherwise import it (`importVariableByKeyAsync`, which may fail), and
insert the imported record if its key is still unseen.  `resolve` is the
host's import operation. -/
def processLibStub (resolve : LibStub → Option Variable)
    (acc : List Variable) (s : LibStub) : List Variable :=
  if hasKey acc s.key then acc
  else match resolve s with
    | none => acc
    | some v => insertIfNewKey acc v

/-- Model of `getAllVariablesAndImportLibraries`: collect all local variables
(first-seen key wins), then for each available library collection filter
its stubs by the relevance name heuristic and import the unseen ones.
`libs` is the list of stub lists of the available library collections, in
the order the host returns them; batching and inter-batch delays do not
change the sequential insertion order and are elided. -/
def getAllVariablesAndImportLibraries (locals : List Variable)
    (libs : List (List LibStub)) (isRelevantName : LibStub → Bool)
    (resolve : LibStub → Option Variable) : List Variable :=
  let afterLocal := locals.foldl insertIfNewKey []
  libs.foldl (fun acc coll => (coll.filter isRelevantName).foldl (processLibStub resolve) acc)
    afterLocal

/-! ## Token Cache (`getSpacingVariables` / `getBorderRadiusVariables`)

Two variants exist in the repository: `src/code.ts` keeps a single cached
spacing-token list with a timestamp and a 5-minute TTL; `src/dist/code.js`
keeps per-collection caches in `Map`s keyed by collection id (or "all")
with **no** timestamp check, plus legacy single-slot caches that are
refreshed only for the unfiltered key.  Each model returns the token list,
the updated cache state, and a flag telling whether a fresh aggregation
(`getAllVariablesAndImportLibraries`) was performed. -/

/-- Model of `CACHE_DURATION = 5 * 60 * 1000` (milliseconds). -/
def CACHE_DURATION : ℕ := 5 * 60 * 1000

/-- The module-level cache of `src/code.ts`: `cachedSpacingTokens` and
`cacheTimestamp`. -/
structure TsSpacingCache where
  cachedSpacingTokens : Option (List SpacingToken)
  cacheTimestamp : ℕ
deriving DecidableEq, Repr

/-- Model of `getSpacingVariables` from `src/code.ts`: return the cached list when
present, not forced, and younger than the TTL; otherwise re-aggregate,
classify, and cache with the current time.  `allResolvedVariables` is the
result the aggregator would produce now. -/
def getSpacingVariablesTs (st : TsSpacingCache) (now : ℕ) (forceRefresh : Bool)
    (allResolvedVariables : List Variable) :
    List SpacingToken × TsSpacingCache × Bool :=
  match st.cachedSpacingTokens with
  | some cached =>
    if forceRefresh = false ∧ now - st.cacheTimestamp < CACHE_DURATION then
      (cached, st, false)
    else
      let spacingTokens := spacingTokensOf none allResolvedVariables
      (spacingTokens, ⟨some spacingTokens, now⟩, true)
  | none =>
    let spacingTokens := spacingTokensOf none allResolvedVariables
    (spacingTokens, ⟨some spacingTokens, now⟩, true)

/-- Lookup in a JS `Map` modelled as an association list in insertion
order. -/
def mapGetStr (m : List (String × List SpacingToken)) (k : String) :
    Option (List SpacingToken) :=
  (m.find? (fun p => decide (p.1 = k))).map (fun p => p.2)

/-- Model of `Map.set`: replace the value at an existing key, else append. -/
def mapSetStr (m : List (String × List SpacingToken)) (k : String)
    (v : List SpacingToken) : List (String × List SpacingToken) :=
  if m.any (fun p => decide (p.1 = k)) then
    m.map (fun p => if p.1 = k then (k, v) else p)
  else m ++ [(k, v)]

/-- The module-level caches of `src/dist/code.js`:
`cachedSpacingTokensByCollection`, `cachedBorderRadiusTokensByCollection`,
and the legacy single-slot caches with their timestamps. -/
structure DistCache where
  spacingByCollection : List (String × List SpacingToken)
  borderRadiusByCollection : List (String × List SpacingToken)
  cachedSpacingTokens : Option (List SpacingToken)
  cacheTimestamp : ℕ
  cachedBorderRadiusTokens : Option (List SpacingToken)
  borderRadiusCacheTimestamp : ℕ
deriving DecidableEq, Repr

/-- Model of `getSpacingVariables` from `src/dist/code.js`: the cache key is the
collection filter or "all"; a present entry is returned whenever
`forceRefresh` is false — no timestamp is consulted.  On a miss the fresh
list is stored under the key, and the legacy single slot is refreshed only
for the unfiltered call. -/
def getSpacingVariablesDist (st : DistCache) (now : ℕ) (forceRefresh : Bool)
    (filterByCollectionId : Option String) (allResolvedVariables : List Variable) :
    List SpacingToken × DistCache × Bool :=
  let cacheKey := filterByCollectionId.getD "all"
  match (if forceRefresh then none else mapGetStr st.spacingByCollection cacheKey) with
  | some cached => (cached, st, false)
  | none =>
    let spacingTokens := spacingTokensOf filterByCollectionId allResolvedVariables
    let st1 := { st with spacingByCollection := mapSetStr st.spacingByCollection cacheKey spacingTokens }
    let st2 :=
      if filterByCollectionId.isNone then
        { st1 with cachedSpacingTokens := some spacingTokens, cacheTimestamp := now }
      else st1
    (spacingTokens, st2, true)

/-- Model of `getBorderRadiusVariables` from `src/dist/code.js`: identical cache
shape over the border-radius classifier. -/
def getBorderRadiusVariablesDist (st : DistCache) (now : ℕ) (forceRefresh : Bool)
    (filterByCollectionId : Option String) (allResolvedVariables : List Variable) :
    List SpacingToken × DistCache × Bool :=
  let cacheKey := filterByCollectionId.getD "all"
  match (if forceRefresh then none else mapGetStr st.borderRadiusByCollection cacheKey) with
  | some cached => (cached, st, false)
  | none =>
    let borderRadiusTokens := borderRadiusTokensOf filterByCollectionId allResolvedVariables
    let st1 := { st with borderRadiusByCollection := mapSetStr st.borderRadiusByCollection cacheKey borderRadiusTokens }
    let st2 :=
      if filterByCollectionId.isNone then
        { st1 with cachedBorderRadiusTokens := some borderRadiusTokens, borderRadiusCacheTimestamp := now }
      else st1
    (borderRadiusTokens, st2, true)

/-! ## Token index and exact-value lookup (`findMatchingTokenByValue`) -/

/-- Lookup in the value→token `Map` (`tokensByValue.get(value)`). -/
def qMapGet (m : List (ℚ × SpacingToken)) (k : ℚ) : Option SpacingToken :=
  (m.find? (fun p => decide (p.1 = k))).map (fun p => p.2)

/-- Model of `Map.set` on the value→token map: replace at an existing key, else
append (later tokens with the same value overwrite earlier ones). -/
def qMapSet (m : List (ℚ × SpacingToken)) (k : ℚ) (t : SpacingToken) :
    List (ℚ × SpacingToken) :=
  if m.any (fun p => decide (p.1 = k)) then
    m.map (fun p => if p.1 = k then (k, t) else p)
  else m ++ [(k, t)]

/-- Model of `tokensByValue`: the value→token index built at the start of each
detection pass (`spacingTokens.forEach(token => tokensByValue.set(token.value, token))`). -/
def buildTokensByValue (tokens : List SpacingToken) : List (ℚ × SpacingToken) :=
  tokens.foldl (fun m t => qMapSet m t.value t) []

/-- Model of `findMatchingTokenByValue(value)` — `tokensByValue.get(value) || null`
(a token object is always truthy, so the JS `||` is an identity on hits). -/
def findMatchingTokenByValue (tokens : List SpacingToken) (value : ℚ) :
    Option SpacingToken :=
  qMapGet (buildTokensByValue tokens) value

/-! ## Visual nodes -/

/-- A bound-variable alias as read back from `node.boundVariables[prop]`:
only the `id` is consulted. -/
structure BoundVariableAlias where
  id : String
deriving DecidableEq, Repr

/-- Model of `node.layoutMode` of an auto-layout capable node. -/
inductive LayoutMode where
  | NONE
  | HORIZONTAL
  | VERTICAL
deriving DecidableEq, Repr

/-- The auto-layout facet of a node (`FrameNode | ComponentNode |
InstanceNode`): the geometric properties and per-property binding state the
spacing detector and binder read. -/
structure AutoLayoutNode where
  name : String
  layoutMode : LayoutMode
  itemSpacing : ℚ
  paddingTop : ℚ
  paddingBottom : ℚ
  paddingLeft : ℚ
  paddingRight : ℚ
  boundItemSpacing : Option BoundVariableAlias
  boundPaddingTop : Option BoundVariableAlias
  boundPaddingBottom : Option BoundVariableAlias
  boundPaddingLeft : Option BoundVariableAlias
  boundPaddingRight : Option BoundVariableAlias
deriving DecidableEq, Repr

/-- The individually bindable spacing fields
(`IndividualSpacingBindableNodeField`). -/
inductive SpacingField where
  | itemSpacing
  | paddingTop
  | paddingBottom
  | paddingLeft
  | paddingRight
deriving DecidableEq, Repr

/-- Model of `node.boundVariables[prop]` for a spacing field. -/
def AutoLayoutNode.boundVariables (n : AutoLayoutNode) :
    SpacingField → Option BoundVariableAlias
  | SpacingField.itemSpacing => n.boundItemSpacing
  | SpacingField.paddingTop => n.boundPaddingTop
  | SpacingField.paddingBottom => n.boundPaddingBottom
  | SpacingField.paddingLeft => n.boundPaddingLeft
  | SpacingField.paddingRight => n.boundPaddingRight

/-- Model of `node[prop]` for a spacing field. -/
def AutoLayoutNode.fieldValue (n : AutoLayoutNode) : SpacingField → ℚ
  | SpacingField.itemSpacing => n.itemSpacing
  | SpacingField.paddingTop => n.paddingTop
  | SpacingField.paddingBottom => n.paddingBottom
  | SpacingField.paddingLeft => n.paddingLeft
  | SpacingField.paddingRight => n.paddingRight

/-- Write `node[prop] = v` for a spacing field. -/
def AutoLayoutNode.setFieldValue (n : AutoLayoutNode) :
    SpacingField → ℚ → AutoLayoutNode
  | SpacingField.itemSpacing, v => { n with itemSpacing := v }
  | SpacingField.paddingTop, v => { n with paddingTop := v }
  | SpacingField.paddingBottom, v => { n with paddingBottom := v }
  | SpacingField.paddingLeft, v => { n with paddingLeft := v }
  | SpacingField.paddingRight, v => { n with paddingRight := v }

/-- The binding-state update performed by a successful
`node.setBoundVariable(prop, x)`. -/
def AutoLayoutNode.setBoundField (n : AutoLayoutNode) :
    SpacingField → Option BoundVariableAlias → AutoLayoutNode
  | SpacingField.itemSpacing, a => { n with boundItemSpacing := a }
  | SpacingField.paddingTop, a => { n with boundPaddingTop := a }
  | SpacingField.paddingBottom, a => { n with boundPaddingBottom := a }
  | SpacingField.paddingLeft, a => { n with boundPaddingLeft := a }
  | SpacingField.paddingRight, a => { n with boundPaddingRight := a }

/-- Model of `isIndividualPaddingBound(node, prop)` —
`node.boundVariables?.[prop] !== undefined`. -/
def isIndividualPaddingBound (n : AutoLayoutNode) (propertyName : SpacingField) : Bool :=
  (n.boundVariables propertyName).isSome

/-- Model of `isHorizontalPaddingBound(node)`. -/
def isHorizontalPaddingBound (n : AutoLayoutNode) : Bool :=
  isIndividualPaddingBound n SpacingField.paddingLeft &&
  isIndividualPaddingBound n SpacingField.paddingRight

/-- Model of `isVerticalPaddingBound(node)`. -/
def isVerticalPaddingBound (n : AutoLayoutNode) : Bool :=
  isIndividualPaddingBound n SpacingField.paddingTop &&
  isIndividualPaddingBound n SpacingField.paddingBottom

/-- Model of `allPaddingsSameAndPositive` — a value-only test: all four padding
edges equal and positive, regardless of binding state. -/
def allPaddingsSameAndPositive (n : AutoLayoutNode) : Bool :=
  decide (0 < n.paddingTop) && decide (n.paddingTop = n.paddingBottom) &&
  decide (n.paddingTop = n.paddingLeft) && decide (n.paddingTop = n.paddingRight)

/-! ## Spacing issue detection (`findSpacingIssues` / `checkNode`) -/

/-- The logical property an emitted spacing issue names. -/
inductive SpacingIssueProp where
  | itemSpacing
  | paddingAll
  | horizontalPadding
  | verticalPadding
  | paddingLeft
  | paddingRight
  | paddingTop
  | paddingBottom
deriving DecidableEq, Repr

/-- Model of `SpacingIssue` from `src/code.ts`. -/
structure SpacingIssue where
  node : AutoLayoutNode
  property : SpacingIssueProp
  currentValue : ℚ
  matchingToken : Option SpacingToken
  message : String
deriving DecidableEq, Repr

/-- The issue message: `Map ... to <name> ...` on a hit, `No ... token for
<value>px ...` on a miss (token-name and pixel-value interpolation as in the
source; rationals print via their standard representation). -/
def issueMessage (hitHead : String) (hitTail : String) (missHead : String)
    (missTail : String) (token : Option SpacingToken) (v : ℚ) : String :=
  match token with
  | some t => hitHead ++ t.name ++ hitTail
  | none => missHead ++ toString v ++ missTail

/-- The `itemSpacing` check of `checkNode`: emit when positive and
unbound. -/
def itemSpacingIssues (tokens : List SpacingToken) (n : AutoLayoutNode) :
    List SpacingIssue :=
  if decide (0 < n.itemSpacing) && !(isIndividualPaddingBound n SpacingField.itemSpacing) then
    let token := findMatchingTokenByValue tokens n.itemSpacing
    [{ node := n, property := SpacingIssueProp.itemSpacing, currentValue := n.itemSpacing,
       matchingToken := token,
       message := issueMessage "Map to " "" "No exact token for " "px gap." token n.itemSpacing }]
  else []

/-- The horizontal half of the padding cascade: the paired
`horizontalPadding` issue, else the individual left/right issues; every
branch carries the `!allPaddingsSameAndPositive` guard of the source. -/
def horizontalPaddingIssues (tokens : List SpacingToken) (n : AutoLayoutNode) :
    List SpacingIssue :=
  let allSame := allPaddingsSameAndPositive n
  if decide (0 < n.paddingLeft) && decide (n.paddingLeft = n.paddingRight) &&
     !allSame && !(isHorizontalPaddingBound n) then
    let token := findMatchingTokenByValue tokens n.paddingLeft
    [{ node := n, property := SpacingIssueProp.horizontalPadding, currentValue := n.paddingLeft,
       matchingToken := token,
       message := issueMessage "Map horiz. padding to " "" "No token for " "px horiz. padding." token n.paddingLeft }]
  else
    (if decide (0 < n.paddingLeft) && !(isIndividualPaddingBound n SpacingField.paddingLeft) &&
        !allSame && !(decide (n.paddingLeft = n.paddingRight) && !(isHorizontalPaddingBound n)) then
      let token := findMatchingTokenByValue tokens n.paddingLeft
      [{ node := n, property := SpacingIssueProp.paddingLeft, currentValue := n.paddingLeft,
         matchingToken := token,
         message := issueMessage "Map left padding to " "" "No token for " "px left padding." token n.paddingLeft }]
    else []) ++
    (if decide (0 < n.paddingRight) && !(isIndividualPaddingBound n SpacingField.paddingRight) &&
        !allSame && !(decide (n.paddingLeft = n.paddingRight) && !(isHorizontalPaddingBound n)) then
      let token := findMatchingTokenByValue tokens n.paddingRight
      [{ node := n, property := SpacingIssueProp.paddingRight, currentValue := n.paddingRight,
         matchingToken := token,
         message := issueMessage "Map right padding to " "" "No token for " "px right padding." token n.paddingRight }]
    else [])

/-- The vertical half of the padding cascade, symmetric to the horizontal
half. -/
def verticalPaddingIssues (tokens : List SpacingToken) (n : AutoLayoutNode) :
    List SpacingIssue :=
  let allSame := allPaddingsSameAndPositive n
  if decide (0 < n.paddingTop) && decide (n.paddingTop = n.paddingBottom) &&
     !allSame && !(isVerticalPaddingBound n) then
    let token := findMatchingTokenByValue tokens n.paddingTop
    [{ node := n, property := SpacingIssueProp.verticalPadding, currentValue := n.paddingTop,
       matchingToken := token,
       message := issueMessage "Map vert. padding to " "" "No token for " "px vert. padding." token n.paddingTop }]
  else
    (if decide (0 < n.paddingTop) && !(isIndividualPaddingBound n SpacingField.paddingTop) &&
        !allSame && !(decide (n.paddingTop = n.paddingBottom) && !(isVerticalPaddingBound n)) then
      let token := findMatchingTokenByValue tokens n.paddingTop
      [{ node := n, property := SpacingIssueProp.paddingTop, currentValue := n.paddingTop,
         matchingToken := token,
         message := issueMessage "Map top padding to " "" "No token for " "px top padding." token n.paddingTop }]
    else []) ++
    (if decide (0 < n.paddingBottom) && !(isIndividualPaddingBound n SpacingField.paddingBottom) &&
        !allSame && !(decide (n.paddingTop = n.paddingBottom) && !(isVerticalPaddingBound n)) then
      let token := findMatchingTokenByValue tokens n.paddingBottom
      [{ node := n, property := SpacingIssueProp.paddingBottom, currentValue := n.paddingBottom,
         matchingToken := token,
         message := issueMessage "Map bottom padding to " "" "No token for " "px bottom padding." token n.paddingBottom }]
    else [])

/-- The padding part of `checkNode`: the uniform `paddingAll` shortcut when
all four edges are equal, positive and all four are unbound; otherwise the
horizontal then the vertical cascade. -/
def paddingIssuesOf (tokens : List SpacingToken) (n : AutoLayoutNode) :
    List SpacingIssue :=
  if allPaddingsSameAndPositive n &&
     !(isIndividualPaddingBound n SpacingField.paddingTop) &&
     !(isIndividualPaddingBound n SpacingField.paddingBottom) &&
     !(isIndividualPaddingBound n SpacingField.paddingLeft) &&
     !(isIndividualPaddingBound n SpacingField.paddingRight) then
    let token := findMatchingTokenByValue tokens n.paddingTop
    [{ node := n, property := SpacingIssueProp.paddingAll, currentValue := n.paddingTop,
       matchingToken := token,
       message := issueMessage "Map all padding to " "" "No token for " "px uniform padding." token n.paddingTop }]
  else
    horizontalPaddingIssues tokens n ++ verticalPaddingIssues tokens n

/-- Model of `checkNode` restricted to one auto-layout node: nothing when layout
mode is `NONE`; otherwise the `itemSpacing` check followed by the padding
cascade.  (The marker side effects are elided; issue order matches the
source's push order.) -/
def checkAutoLayout (tokens : List SpacingToken) (n : AutoLayoutNode) :
    List SpacingIssue :=
  if n.layoutMode ≠ LayoutMode.NONE then
    itemSpacingIssues tokens n ++ paddingIssuesOf tokens n
  else []

/-! ## Border radius detection (`findBorderRadiusIssues`, dist variant) -/

/-- The radius facet of a node exposing all four corner radii
(`hasRadiusProperties`). -/
structure RadiusNode where
  name : String
  topLeftRadius : ℚ
  topRightRadius : ℚ
  bottomLeftRadius : ℚ
  bottomRightRadius : ℚ
  boundTopLeftRadius : Option BoundVariableAlias
  boundTopRightRadius : Option BoundVariableAlias
  boundBottomLeftRadius : Option BoundVariableAlias
  boundBottomRightRadius : Option BoundVariableAlias
deriving DecidableEq, Repr

/-- The bindable corner-radius fields. -/
inductive RadiusField where
  | topLeftRadius
  | topRightRadius
  | bottomLeftRadius
  | bottomRightRadius
deriving DecidableEq, Repr

/-- Model of `node.boundVariables[prop]` for a corner-radius field. -/
def RadiusNode.boundVariables (r : RadiusNode) :
    RadiusField → Option BoundVariableAlias
  | RadiusField.topLeftRadius => r.boundTopLeftRadius
  | RadiusField.topRightRadius => r.boundTopRightRadius
  | RadiusField.bottomLeftRadius => r.boundBottomLeftRadius
  | RadiusField.bottomRightRadius => r.boundBottomRightRadius

/-- Model of `node[prop]` for a corner-radius field. -/
def RadiusNode.fieldValue (r : RadiusNode) : RadiusField → ℚ
  | RadiusField.topLeftRadius => r.topLeftRadius
  | RadiusField.topRightRadius => r.topRightRadius
  | RadiusField.bottomLeftRadius => r.bottomLeftRadius
  | RadiusField.bottomRightRadius => r.bottomRightRadius

/-- Write `node[prop] = v` for a corner-radius field. -/
def RadiusNode.setFieldValue (r : RadiusNode) : RadiusField → ℚ → RadiusNode
  | RadiusField.topLeftRadius, v => { r with topLeftRadius := v }
  | RadiusField.topRightRadius, v => { r with topRightRadius := v }
  | RadiusField.bottomLeftRadius, v => { r with bottomLeftRadius := v }
  | RadiusField.bottomRightRadius, v => { r with bottomRightRadius := v }

/-- The binding-state update of `node.setBoundVariable(prop, x)` on a
corner-radius field. -/
def RadiusNode.setBoundField (r : RadiusNode) :
    RadiusField → Option BoundVariableAlias → RadiusNode
  | RadiusField.topLeftRadius, a => { r with boundTopLeftRadius := a }
  | RadiusField.topRightRadius, a => { r with boundTopRightRadius := a }
  | RadiusField.bottomLeftRadius, a => { r with boundBottomLeftRadius := a }
  | RadiusField.bottomRightRadius, a => { r with boundBottomRightRadius := a }

/-- Model of `isIndividualRadiusBound(node, prop)`. -/
def isIndividualRadiusBound (r : RadiusNode) (propertyName : RadiusField) : Bool :=
  (r.boundVariables propertyName).isSome

/-- Model of `areAllRadiiSameAndPositive(node)` — a value-only test. -/
def areAllRadiiSameAndPositive (r : RadiusNode) : Bool :=
  decide (0 < r.topLeftRadius) && decide (r.topLeftRadius = r.topRightRadius) &&
  decide (r.topLeftRadius = r.bottomLeftRadius) && decide (r.topLeftRadius = r.bottomRightRadius)

/-- Model of `areAllRadiiBound(node)` — all **four** corners bound (the uniform
shortcut is suppressed only when every corner is already bound). -/
def areAllRadiiBound (r : RadiusNode) : Bool :=
  isIndividualRadiusBound r RadiusField.topLeftRadius &&
  isIndividualRadiusBound r RadiusField.topRightRadius &&
  isIndividualRadiusBound r RadiusField.bottomLeftRadius &&
  isIndividualRadiusBound r RadiusField.bottomRightRadius

/-- The logical property a border-radius issue names. -/
inductive RadiusIssueProp where
  | borderRadiusAll
  | topLeftRadius
  | topRightRadius
  | bottomLeftRadius
  | bottomRightRadius
deriving DecidableEq, Repr

/-- A border-radius issue (same shape as a spacing issue). -/
structure RadiusIssue where
  node : RadiusNode
  property : RadiusIssueProp
  currentValue : ℚ
  matchingToken : Option SpacingToken
  message : String
deriving DecidableEq, Repr

/-- The `radiiToCheck` array of the individual-corner loop: value, issue
property, display name, and the bindable field, in source order. -/
def radiiToCheck (r : RadiusNode) : List (ℚ × RadiusIssueProp × String × RadiusField) :=
  [(r.topLeftRadius, RadiusIssueProp.topLeftRadius, "top-left", RadiusField.topLeftRadius),
   (r.topRightRadius, RadiusIssueProp.topRightRadius, "top-right", RadiusField.topRightRadius),
   (r.bottomLeftRadius, RadiusIssueProp.bottomLeftRadius, "bottom-left", RadiusField.bottomLeftRadius),
   (r.bottomRightRadius, RadiusIssueProp.bottomRightRadius, "bottom-right", RadiusField.bottomRightRadius)]

/-- Model of `checkNode` of `findBorderRadiusIssues` restricted to one
radius-bearing node: the uniform `borderRadiusAll` shortcut when all four
radii are equal, positive and **not all four** are bound; otherwise the
individual corner loop, each corner guarded by positivity, unboundness and
`!allRadiiSameAndPositive`. -/
def checkRadiusNode (tokens : List SpacingToken) (r : RadiusNode) :
    List RadiusIssue :=
  let allRadiiSame := areAllRadiiSameAndPositive r
  if allRadiiSame && !(areAllRadiiBound r) then
    let token := findMatchingTokenByValue tokens r.topLeftRadius
    [{ node := r, property := RadiusIssueProp.borderRadiusAll, currentValue := r.topLeftRadius,
       matchingToken := token,
       message := issueMessage "Map all corners to " "" "No token for " "px uniform radius." token r.topLeftRadius }]
  else
    (radiiToCheck r).flatMap (fun x =>
      if decide (0 < x.1) && !(isIndividualRadiusBound r x.2.2.2) && !allRadiiSame then
        let token := findMatchingTokenByValue tokens x.1
        [{ node := r, property := x.2.1, currentValue := x.1,
           matchingToken := token,
           message := issueMessage ("Map " ++ x.2.2.1 ++ " radius to ") ""
             "No token for " ("px " ++ x.2.2.1 ++ " radius.") token x.1 }]
      else [])

/-! ## The scene tree and the full detection passes -/

/-- A scene node: an optional auto-layout facet (frames, components,
instances), an optional radius facet (those three plus rectangles), and
children.  Nodes without a facet are transparent pass-throughs that are
still recursed into. -/
inductive SceneNode where
  | node (auto : Option AutoLayoutNode) (radius : Option RadiusNode)
      (children : List SceneNode)

mutual

/-- The recursive `checkNode` of `findSpacingIssues` over the tree
(depth-first pre-order; issues accumulate in push order). -/
def checkNodeSpacing (tokens : List SpacingToken) : SceneNode → List SpacingIssue
  | SceneNode.node auto _ children =>
    (match auto with
     | some a => checkAutoLayout tokens a
     | none => []) ++ checkNodesSpacing tokens children

/-- Model of `checkNode` mapped over a child list. -/
def checkNodesSpacing (tokens : List SpacingToken) : List SceneNode → List SpacingIssue
  | [] => []
  | c :: cs => checkNodeSpacing tokens c ++ checkNodesSpacing tokens cs

end

mutual

/-- The recursive `checkNode` of `findBorderRadiusIssues` over the tree. -/
def checkNodeRadius (tokens : List SpacingToken) : SceneNode → List RadiusIssue
  | SceneNode.node _ radius children =>
    (match radius with
     | some r => checkRadiusNode tokens r
     | none => []) ++ checkNodesRadius tokens children

/-- Radius `checkNode` mapped over a child list. -/
def checkNodesRadius (tokens : List SpacingToken) : List SceneNode → List RadiusIssue
  | [] => []
  | c :: cs => checkNodeRadius tokens c ++ checkNodesRadius tokens cs

end

/-- Model of `findSpacingIssues`: detect over the scoped root list (the selection if
non-empty, else the page's top-level children), with the token list the
cache returned for this pass. -/
def findSpacingIssues (tokens : List SpacingToken) (nodesToCheck : List SceneNode) :
    List SpacingIssue :=
  checkNodesSpacing tokens nodesToCheck

/-- Model of `findBorderRadiusIssues` over the same scope. -/
def findBorderRadiusIssues (tokens : List SpacingToken) (nodesToCheck : List SceneNode) :
    List RadiusIssue :=
  checkNodesRadius tokens nodesToCheck

/-! ## Binder (`trySetBoundVariable`) and reverter
(`removeBindingAndSetStatic`) -/

/-- Model of `trySetBoundVariable(node, propertyName, token)`.  The host call
`node.setBoundVariable(propertyName, token.variableObject)` either throws
or leaves the node in a new state; `setBoundVariableResult` is that
outcome.  On success the node's binding for the property is re-read and
the bound identifier compared against `token.id`; a throw or a mismatch
yields `false`.  The function is total: no exception propagates to the
caller. -/
def trySetBoundVariable (node : AutoLayoutNode) (propertyName : SpacingField)
    (token : SpacingToken) (setBoundVariableResult : Except String AutoLayoutNode) :
    Bool × AutoLayoutNode :=
  match setBoundVariableResult with
  | Except.error _ => (false, node)
  | Except.ok node2 =>
    match node2.boundVariables propertyName with
    | some boundVariableAlias => (decide (boundVariableAlias.id = token.id), node2)
    | none => (false, node2)

/-- Model of `removeBindingAndSetStatic(node, property)` from
`revertSpacingBindingsToStatic`: a no-op returning `false` when the
property has no binding; otherwise read the current computed value, clear
the binding, write the value back as a static override, and return
`true`. -/
def removeBindingAndSetStatic (node : AutoLayoutNode) (property : SpacingField) :
    Bool × AutoLayoutNode :=
  match node.boundVariables property with
  | none => (false, node)
  | some _ =>
    let currentValue := node.fieldValue property
    let node2 := node.setBoundField property none
    let node3 := node2.setFieldValue property currentValue
    (true, node3)

/-- Model of `removeBorderRadiusBindingAndSetStatic(node, property)` from
`revertAllBindingsToStatic` (dist): the same shape on a radius facet. -/
def removeBorderRadiusBindingAndSetStatic (node : RadiusNode) (property : RadiusField) :
    Bool × RadiusNode :=
  match node.boundVariables property with
  | none => (false, node)
  | some _ =>
    let currentValue := node.fieldValue property
    let node2 := node.setBoundField property none
    let node3 := node2.setFieldValue property currentValue
    (true, node3)

/-! ## Fix passes (`fixSpacingIssues` / `fixBorderRadiusIssues`)

The per-call outcome of `trySetBoundVariable` depends on the host; the fix
loops are modelled against an abstract host state `σ` with a `bind`
operation returning the success flag `trySetBoundVariable` would return.
Only the aggregate counts are claimed about, and they depend on the host
exactly through these flags. -/

/-- Sequential binding of several fields for one composite issue:
`paddingAll` (and `borderRadiusAll`) loop over every field even after a
failure, and the composite succeeds iff every field bind succeeded; the
pair cases (`horizontalPadding`, `verticalPadding`) compute `S1 && S2` the
same way. -/
def bindFields {σ : Type} (bindOp : σ → AutoLayoutNode → SpacingField → SpacingToken → Bool × σ)
    (s : σ) (node : AutoLayoutNode) (token : SpacingToken) (fields : List SpacingField) :
    Bool × σ :=
  fields.foldl (fun acc f =>
    let r := bindOp acc.2 node f token
    (acc.1 && r.1, r.2)) (true, s)

/-- The per-issue dispatch of the `fixSpacingIssues` loop: which fields a
spacing issue binds. -/
def fieldsToBind : SpacingIssueProp → List SpacingField
  | SpacingIssueProp.paddingAll =>
    [SpacingField.paddingTop, SpacingField.paddingBottom,
     SpacingField.paddingLeft, SpacingField.paddingRight]
  | SpacingIssueProp.horizontalPadding => [SpacingField.paddingLeft, SpacingField.paddingRight]
  | SpacingIssueProp.verticalPadding => [SpacingField.paddingTop, SpacingField.paddingBottom]
  | SpacingIssueProp.itemSpacing => [SpacingField.itemSpacing]
  | SpacingIssueProp.paddingLeft => [SpacingField.paddingLeft]
  | SpacingIssueProp.paddingRight => [SpacingField.paddingRight]
  | SpacingIssueProp.paddingTop => [SpacingField.paddingTop]
  | SpacingIssueProp.paddingBottom => [SpacingField.paddingBottom]

/-- One iteration of the `fixSpacingIssues` loop: issues without a
matching token are skipped (`if (issue.matchingToken && ...)`), otherwise
the fields of the issue are bound and `fixedCount` is incremented on
success. -/
def fixSpacingStep {σ : Type}
    (bindOp : σ → AutoLayoutNode → SpacingField → SpacingToken → Bool × σ)
    (acc : ℕ × σ) (issue : SpacingIssue) : ℕ × σ :=
  match issue.matchingToken with
  | none => acc
  | some matchingToken =>
    let br := bindFields bindOp acc.2 issue.node matchingToken (fieldsToBind issue.property)
    (if br.1 then acc.1 + 1 else acc.1, br.2)

/-- The counting core of `fixSpacingIssues`: `unfixableCount` counts the
issues with no matching token up front; the loop then attempts only issues
with a matching token and increments `fixedCount` on success.  Returns
`(fixedCount, unfixableCount, final host state)`. -/
def fixSpacingIssuesCounts {σ : Type}
    (bindOp : σ → AutoLayoutNode → SpacingField → SpacingToken → Bool × σ)
    (s0 : σ) (issues : List SpacingIssue) : ℕ × ℕ × σ :=
  let unfixableCount := issues.countP (fun issue => issue.matchingToken.isNone)
  let r := issues.foldl (fixSpacingStep bindOp) (0, s0)
  (r.1, unfixableCount, r.2)

/-- Model of `fixSpacingIssues`: re-detect, then count fixes over the detected
issues. -/
def fixSpacingIssues {σ : Type}
    (bindOp : σ → AutoLayoutNode → SpacingField → SpacingToken → Bool × σ)
    (s0 : σ) (tokens : List SpacingToken) (nodesToCheck : List SceneNode) : ℕ × ℕ × σ :=
  fixSpacingIssuesCounts bindOp s0 (findSpacingIssues tokens nodesToCheck)

/-- Sequential binding of corner fields for a radius issue. -/
def bindRadiusFields {σ : Type}
    (bindOp : σ → RadiusNode → RadiusField → SpacingToken → Bool × σ)
    (s : σ) (node : RadiusNode) (token : SpacingToken) (fields : List RadiusField) :
    Bool × σ :=
  fields.foldl (fun acc f =>
    let r := bindOp acc.2 node f token
    (acc.1 && r.1, r.2)) (true, s)

/-- Which corner fields a radius issue binds. -/
def radiusFieldsToBind : RadiusIssueProp → List RadiusField
  | RadiusIssueProp.borderRadiusAll =>
    [RadiusField.topLeftRadius, RadiusField.topRightRadius,
     RadiusField.bottomLeftRadius, RadiusField.bottomRightRadius]
  | RadiusIssueProp.topLeftRadius => [RadiusField.topLeftRadius]
  | RadiusIssueProp.topRightRadius => [RadiusField.topRightRadius]
  | RadiusIssueProp.bottomLeftRadius => [RadiusField.bottomLeftRadius]
  | RadiusIssueProp.bottomRightRadius => [RadiusField.bottomRightRadius]

/-- One iteration of the `fixBorderRadiusIssues` loop. -/
def fixBorderRadiusStep {σ : Type}
    (bindOp : σ → RadiusNode → RadiusField → SpacingToken → Bool × σ)
    (acc : ℕ × σ) (issue : RadiusIssue) : ℕ × σ :=
  match issue.matchingToken with
  | none => acc
  | some matchingToken =>
    let br := bindRadiusFields bindOp acc.2 issue.node matchingToken
      (radiusFieldsToBind issue.property)
    (if br.1 then acc.1 + 1 else acc.1, br.2)

/-- The counting core of `fixBorderRadiusIssues` (dist), identical in
shape to the spacing one. -/
def fixBorderRadiusIssuesCounts {σ : Type}
    (bindOp : σ → RadiusNode → RadiusField → SpacingToken → Bool × σ)
    (s0 : σ) (issues : List RadiusIssue) : ℕ × ℕ × σ :=
  let unfixableCount := issues.countP (fun issue => issue.matchingToken.isNone)
  let r := issues.foldl (fixBorderRadiusStep bindOp) (0, s0)
  (r.1, unfixableCount, r.2)

/-- Model of `fixBorderRadiusIssues`: re-detect, then count fixes. -/
def fixBorderRadiusIssues {σ : Type}
    (bindOp : σ → RadiusNode → RadiusField → SpacingToken → Bool × σ)
    (s0 : σ) (tokens : List SpacingToken) (nodesToCheck : List SceneNode) : ℕ × ℕ × σ :=
  fixBorderRadiusIssuesCounts bindOp s0 (findBorderRadiusIssues tokens nodesToCheck)

/-- Fixability as consumed by the session controller
(`issues.filter(issue => issue.matchingToken !== null)`) and by the fix
loop's entry guard. -/
def issueIsFixable (issue : SpacingIssue) : Bool :=
  issue.matchingToken.isSome

/-! ## Theorems -/

/-- Updating a spacing field's static value does not touch its binding
state. -/
theorem boundVariables_setFieldValue (n : AutoLayoutNode) (p : SpacingField) (v : ℚ) :
    (n.setFieldValue p v).boundVariables p = n.boundVariables p := by
  cases p <;> rfl

/-- After clearing a binding and restoring the static value, the field is
unbound. -/
theorem boundVariables_after_revert (n : AutoLayoutNode) (p : SpacingField) (v : ℚ) :
    (((n.setBoundField p none).setFieldValue p v)).boundVariables p = none := by
  cases p <;> rfl

/-- Radius analogue of `boundVariables_after_revert`. -/
theorem radius_boundVariables_after_revert (r : RadiusNode) (p : RadiusField) (v : ℚ) :
    (((r.setBoundField p none).setFieldValue p v)).boundVariables p = none := by
  cases p <;> rfl

/-- Claim C8: `trySetBoundVariable` returns `true` exactly when the host
call succeeded and the re-read bound identifier for the property equals the
token's identifier; a thrown failure or a mismatch yields `false`, and the
function is total (no exception reaches the caller). -/
theorem C8_trySetBoundVariable_verified (node : AutoLayoutNode)
    (propertyName : SpacingField) (token : SpacingToken)
    (setBoundVariableResult : Except String AutoLayoutNode) :
    (trySetBoundVariable node propertyName token setBoundVariableResult).1 = true ↔
      ∃ node2, setBoundVariableResult = Except.ok node2 ∧
        ∃ a, node2.boundVariables propertyName = some a ∧ a.id = token.id := by
  cases setBoundVariableResult with
  | error e => simp [trySetBoundVariable]
  | ok node2 =>
    cases h : node2.boundVariables propertyName with
    | none => simp [trySetBoundVariable, h]
    | some a => simp [trySetBoundVariable, h]

/-- Claim C8 witness: a binding attempt whose re-read identifier matches. -/
theorem C8_witness :
    (trySetBoundVariable
      ⟨"f", LayoutMode.HORIZONTAL, 0, 0, 0, 0, 0, none, none, none, none, none⟩
      SpacingField.itemSpacing
      ⟨"V1", "k", "space-8", 8,
        ⟨"V1", "k", "space-8", VarResolvedType.FLOAT, [("m", VarValue.num 8)], "c"⟩⟩
      (Except.ok ⟨"f", LayoutMode.HORIZONTAL, 0, 0, 0, 0, 0, some ⟨"V1"⟩, none, none, none, none⟩)).1
      = true := by
  exact (C8_trySetBoundVariable_verified _ _ _ _).mpr
    ⟨_, rfl, ⟨"V1"⟩, rfl, rfl⟩

/-- Claim C9: reverting a property with no existing binding returns
`false` and leaves the node (every property of it) unchanged, and a second
revert of the same property is always a no-op — for the spacing reverter
and for the dist border-radius reverter alike. -/
theorem C9_revert_noop_idempotent (node : AutoLayoutNode) (property : SpacingField)
    (rnode : RadiusNode) (rproperty : RadiusField) :
    (node.boundVariables property = none →
      removeBindingAndSetStatic node property = (false, node)) ∧
    removeBindingAndSetStatic (removeBindingAndSetStatic node property).2 property
      = (false, (removeBindingAndSetStatic node property).2) ∧
    (rnode.boundVariables rproperty = none →
      removeBorderRadiusBindingAndSetStatic rnode rproperty = (false, rnode)) ∧
    removeBorderRadiusBindingAndSetStatic
        (removeBorderRadiusBindingAndSetStatic rnode rproperty).2 rproperty
      = (false, (removeBorderRadiusBindingAndSetStatic rnode rproperty).2) := by
  refine ⟨fun h => by simp [removeBindingAndSetStatic, h], ?_,
    fun h => by simp [removeBorderRadiusBindingAndSetStatic, h], ?_⟩
  · cases h : node.boundVariables property with
    | none => simp [removeBindingAndSetStatic, h]
    | some a =>
      simp only [removeBindingAndSetStatic, h]
      simp [removeBindingAndSetStatic, boundVariables_after_revert]
  · cases h : rnode.boundVariables rproperty with
    | none => simp [removeBorderRadiusBindingAndSetStatic, h]
    | some a =>
      simp only [removeBorderRadiusBindingAndSetStatic, h]
      simp [removeBorderRadiusBindingAndSetStatic, radius_boundVariables_after_revert]

/-- Claim C9 witness: reverting an unbound `paddingTop` (and an unbound
corner) is a no-op. -/
theorem C9_witness :
    removeBindingAndSetStatic
      ⟨"f", LayoutMode.HORIZONTAL, 0, 8, 8, 8, 8, none, none, none, none, none⟩
      SpacingField.paddingTop
      = (false, ⟨"f", LayoutMode.HORIZONTAL, 0, 8, 8, 8, 8, none, none, none, none, none⟩) := by
  exact (C9_revert_noop_idempotent _ SpacingField.paddingTop
    ⟨"r", 4, 4, 4, 4, none, none, none, none⟩ RadiusField.topLeftRadius).1 rfl

/-- Every issue the itemSpacing check emits names `itemSpacing`. -/
theorem itemSpacingIssues_property (tokens : List SpacingToken) (n : AutoLayoutNode) :
    ∀ i ∈ itemSpacingIssues tokens n, i.property = SpacingIssueProp.itemSpacing := by
  unfold itemSpacingIssues
  split <;> simp

/-- When all four padding edges are equal and positive but not all four
are unbound, the padding cascade emits nothing: every finer-grained branch
is guarded by `!allPaddingsSameAndPositive`. -/
theorem paddingIssuesOf_eq_nil_of_uniform_bound (tokens : List SpacingToken)
    (n : AutoLayoutNode) (hSame : allPaddingsSameAndPositive n = true)
    (hBound : isIndividualPaddingBound n SpacingField.paddingTop = true ∨
              isIndividualPaddingBound n SpacingField.paddingBottom = true ∨
              isIndividualPaddingBound n SpacingField.paddingLeft = true ∨
              isIndividualPaddingBound n SpacingField.paddingRight = true) :
    paddingIssuesOf tokens n = [] := by
  unfold paddingIssuesOf
  rw [if_neg]
  · unfold horizontalPaddingIssues verticalPaddingIssues
    simp [hSame]
  · rcases hBound with h | h | h | h <;> simp [h]

/-- Claim C1 counterexample: a layout node whose four padding edges are
all 8 (equal, positive) with `paddingTop` already bound and a matching
8-px token available.  The claim says detection evaluates the remaining
edges individually and emits issues for `paddingLeft`, `paddingRight` and
`paddingBottom`; the code emits no issue at all for this node, because
every branch of the finer-grained cascade is guarded by the value-only
`!allPaddingsSameAndPositive` test, which fails here. -/
theorem C1_counterexample :
    allPaddingsSameAndPositive
      ⟨"card", LayoutMode.HORIZONTAL, 0, 8, 8, 8, 8, none, some ⟨"V1"⟩, none, none, none⟩ = true ∧
    isIndividualPaddingBound
      ⟨"card", LayoutMode.HORIZONTAL, 0, 8, 8, 8, 8, none, some ⟨"V1"⟩, none, none, none⟩
      SpacingField.paddingTop = true ∧
    checkAutoLayout
      [⟨"V1", "k1", "space-8", 8,
        ⟨"V1", "k1", "space-8", VarResolvedType.FLOAT, [("m", VarValue.num 8)], "c"⟩⟩]
      ⟨"card", LayoutMode.HORIZONTAL, 0, 8, 8, 8, 8, none, some ⟨"V1"⟩, none, none, none⟩
      = [] := by
  refine ⟨by decide, by decide, ?_⟩
  rfl

/-- Claim C1 (amended): for a layout-container node with layout mode
enabled whose four padding edges are all equal and positive but with some
padding edge already bound, the spacing detection pass emits no
`paddingAll` issue — and it also emits no horizontal/vertical/individual
padding issue, because the finer-grained cascade is additionally guarded by
the value-only all-edges-equal-and-positive test; only an `itemSpacing`
issue can still be emitted for such a node. -/
theorem C1_amended (tokens : List SpacingToken) (n : AutoLayoutNode)
    (hSame : allPaddingsSameAndPositive n = true)
    (hTop : isIndividualPaddingBound n SpacingField.paddingTop = true) :
    ∀ i ∈ checkAutoLayout tokens n, i.property = SpacingIssueProp.itemSpacing := by
  intro i hi
  unfold checkAutoLayout at hi
  split at hi
  · rw [paddingIssuesOf_eq_nil_of_uniform_bound tokens n hSame (Or.inl hTop)] at hi
    rw [List.append_nil] at hi
    exact itemSpacingIssues_property tokens n i hi
  · simp at hi

/-- Claim C1 witness: on a uniformly-padded node with `paddingTop` bound
and a positive item spacing, the one emitted issue names `itemSpacing` —
no padding issue is decomposed out of the uniform group. -/
theorem C1_witness :
    (SpacingIssue.mk
      ⟨"card", LayoutMode.VERTICAL, 12, 8, 8, 8, 8, none, some ⟨"V1"⟩, none, none, none⟩
      SpacingIssueProp.itemSpacing 12 none "No exact token for 12px gap.").property
      = SpacingIssueProp.itemSpacing := by
  refine C1_amended
    [⟨"V1", "k1", "space-8", 8,
      ⟨"V1", "k1", "space-8", VarResolvedType.FLOAT, [("m", VarValue.num 8)], "c"⟩⟩]
    ⟨"card", LayoutMode.VERTICAL, 12, 8, 8, 8, 8, none, some ⟨"V1"⟩, none, none, none⟩
    (by decide) (by decide) _ ?_
  decide

/-- Claim C5: for a layout-container node with layout mode enabled whose
four padding edges are equal, positive, and none of the four individually
bound, one spacing detection pass emits exactly one `paddingAll` issue for
that node and zero `paddingLeft` / `paddingRight` / `paddingTop` /
`paddingBottom` / `horizontalPadding` / `verticalPadding` issues. -/
theorem C5_uniform_shortcut_exclusive (tokens : List SpacingToken) (n : AutoLayoutNode)
    (hLayout : n.layoutMode ≠ LayoutMode.NONE)
    (hSame : allPaddingsSameAndPositive n = true)
    (hTop : isIndividualPaddingBound n SpacingField.paddingTop = false)
    (hBottom : isIndividualPaddingBound n SpacingField.paddingBottom = false)
    (hLeft : isIndividualPaddingBound n SpacingField.paddingLeft = false)
    (hRight : isIndividualPaddingBound n SpacingField.paddingRight = false) :
    ((checkAutoLayout tokens n).countP
        (fun i => decide (i.property = SpacingIssueProp.paddingAll)) = 1) ∧
    ((checkAutoLayout tokens n).countP
        (fun i => decide (i.property = SpacingIssueProp.paddingLeft ∨
          i.property = SpacingIssueProp.paddingRight ∨
          i.property = SpacingIssueProp.paddingTop ∨
          i.property = SpacingIssueProp.paddingBottom ∨
          i.property = SpacingIssueProp.horizontalPadding ∨
          i.property = SpacingIssueProp.verticalPadding)) = 0) := by
  have hPad : paddingIssuesOf tokens n =
      [{ node := n, property := SpacingIssueProp.paddingAll, currentValue := n.paddingTop,
         matchingToken := findMatchingTokenByValue tokens n.paddingTop,
         message := issueMessage "Map all padding to " "" "No token for " "px uniform padding."
           (findMatchingTokenByValue tokens n.paddingTop) n.paddingTop }] := by
    unfold paddingIssuesOf
    rw [if_pos]
    simp [hSame, hTop, hBottom, hLeft, hRight]
  unfold checkAutoLayout
  rw [if_pos hLayout]
  rw [List.countP_append, List.countP_append, hPad]
  constructor
  · have hItem : (itemSpacingIssues tokens n).countP
        (fun i => decide (i.property = SpacingIssueProp.paddingAll)) = 0 := by
      unfold itemSpacingIssues
      split <;> simp
    rw [hItem]
    simp [List.countP_cons]
  · have hItem : (itemSpacingIssues tokens n).countP
        (fun i => decide (i.property = SpacingIssueProp.paddingLeft ∨
          i.property = SpacingIssueProp.paddingRight ∨
          i.property = SpacingIssueProp.paddingTop ∨
          i.property = SpacingIssueProp.paddingBottom ∨
          i.property = SpacingIssueProp.horizontalPadding ∨
          i.property = SpacingIssueProp.verticalPadding)) = 0 := by
      unfold itemSpacingIssues
      split <;> simp
    rw [hItem]
    simp [List.countP_cons]

/-- Claim C5 witness: a concrete uniform, unbound node yields one
`paddingAll` issue and no finer-grained padding issue. -/
theorem C5_witness :
    ((checkAutoLayout
        [⟨"V1", "k1", "space-8", 8,
          ⟨"V1", "k1", "space-8", VarResolvedType.FLOAT, [("m", VarValue.num 8)], "c"⟩⟩]
        ⟨"card", LayoutMode.HORIZONTAL, 0, 8, 8, 8, 8, none, none, none, none, none⟩).countP
        (fun i => decide (i.property = SpacingIssueProp.paddingAll)) = 1) ∧
    ((checkAutoLayout
        [⟨"V1", "k1", "space-8", 8,
          ⟨"V1", "k1", "space-8", VarResolvedType.FLOAT, [("m", VarValue.num 8)], "c"⟩⟩]
        ⟨"card", LayoutMode.HORIZONTAL, 0, 8, 8, 8, 8, none, none, none, none, none⟩).countP
        (fun i => decide (i.property = SpacingIssueProp.paddingLeft ∨
          i.property = SpacingIssueProp.paddingRight ∨
          i.property = SpacingIssueProp.paddingTop ∨
          i.property = SpacingIssueProp.paddingBottom ∨
          i.property = SpacingIssueProp.horizontalPadding ∨
          i.property = SpacingIssueProp.verticalPadding)) = 0) := by
  exact C5_uniform_shortcut_exclusive _ _ (by decide) (by decide) (by decide) (by decide)
    (by decide) (by decide)

/-- Claim C2 counterexample: a node with all four corner radii equal to 4
and `topLeftRadius` individually bound.  The claim allows `borderRadiusAll`
only when no corner is individually bound; the code suppresses the uniform
shortcut only when **all four** corners are bound, so it still emits a
`borderRadiusAll` issue here (and, contrary to the claim's cascade, no
individual issue for the three unbound corners). -/
theorem C2_counterexample :
    isIndividualRadiusBound
      ⟨"rect", 4, 4, 4, 4, some ⟨"V1"⟩, none, none, none⟩ RadiusField.topLeftRadius = true ∧
    (checkRadiusNode
      [⟨"V1", "k1", "radius-sm", 4,
        ⟨"V1", "k1", "radius-sm", VarResolvedType.FLOAT, [("m", VarValue.num 4)], "c"⟩⟩]
      ⟨"rect", 4, 4, 4, 4, some ⟨"V1"⟩, none, none, none⟩).countP
      (fun i => decide (i.property = RadiusIssueProp.borderRadiusAll)) = 1 := by
  constructor
  · decide
  · rfl

/-- Count of issues with a given property emitted by one corner segment of
the individual-corner loop (with the `!allRadiiSameAndPositive` guard
already discharged). -/
theorem countP_radius_segment (tokens : List SpacingToken) (r : RadiusNode)
    (v : ℚ) (pp : RadiusIssueProp) (d : String) (f : RadiusField)
    (pp0 : RadiusIssueProp) :
    (if (decide (0 < v) && !(isIndividualRadiusBound r f)) = true then
      [{ node := r, property := pp, currentValue := v,
         matchingToken := findMatchingTokenByValue tokens v,
         message := issueMessage ("Map " ++ d ++ " radius to ") ""
           "No token for " ("px " ++ d ++ " radius.")
           (findMatchingTokenByValue tokens v) v : RadiusIssue }]
      else []).countP (fun i => decide (i.property = pp0)) =
    if pp = pp0 ∧ 0 < v ∧ r.boundVariables f = none then 1 else 0 := by
  by_cases hpp : pp = pp0
  · by_cases h1 : 0 < v
    · cases hb : r.boundVariables f with
      | none => simp [isIndividualRadiusBound, hpp, h1, hb, List.countP_cons]
      | some a => simp [isIndividualRadiusBound, hpp, h1, hb]
    · simp [h1]
  · by_cases h1 : 0 < v
    · cases hb : r.boundVariables f with
      | none => simp [isIndividualRadiusBound, hpp, h1, hb, List.countP_cons]
      | some a => simp [isIndividualRadiusBound, hpp, h1, hb]
    · simp [h1, hpp]

/-- Claim C2 (amended): the uniform `borderRadiusAll` issue is emitted
exactly when all four corner radii are equal and positive and **not all
four** corner properties are bound (at least one corner unbound) — not
"none individually bound" as claimed; otherwise each corner is evaluated
independently and emits exactly when its value is positive, the corner is
unbound, and the radii are not all equal-and-positive. -/
theorem C2_amended (tokens : List SpacingToken) (r : RadiusNode) :
    ((checkRadiusNode tokens r).countP
        (fun i => decide (i.property = RadiusIssueProp.borderRadiusAll)) =
      if areAllRadiiSameAndPositive r = true ∧ areAllRadiiBound r = false then 1 else 0) ∧
    ((checkRadiusNode tokens r).countP
        (fun i => decide (i.property = RadiusIssueProp.topLeftRadius)) =
      if 0 < r.topLeftRadius ∧ r.boundTopLeftRadius = none ∧
         areAllRadiiSameAndPositive r = false then 1 else 0) ∧
    ((checkRadiusNode tokens r).countP
        (fun i => decide (i.property = RadiusIssueProp.topRightRadius)) =
      if 0 < r.topRightRadius ∧ r.boundTopRightRadius = none ∧
         areAllRadiiSameAndPositive r = false then 1 else 0) ∧
    ((checkRadiusNode tokens r).countP
        (fun i => decide (i.property = RadiusIssueProp.bottomLeftRadius)) =
      if 0 < r.bottomLeftRadius ∧ r.boundBottomLeftRadius = none ∧
         areAllRadiiSameAndPositive r = false then 1 else 0) ∧
    ((checkRadiusNode tokens r).countP
        (fun i => decide (i.property = RadiusIssueProp.bottomRightRadius)) =
      if 0 < r.bottomRightRadius ∧ r.boundBottomRightRadius = none ∧
         areAllRadiiSameAndPositive r = false then 1 else 0) := by
  cases hS : areAllRadiiSameAndPositive r with
  | true =>
    cases hB : areAllRadiiBound r with
    | false =>
      have hout : checkRadiusNode tokens r =
          [{ node := r, property := RadiusIssueProp.borderRadiusAll,
             currentValue := r.topLeftRadius,
             matchingToken := findMatchingTokenByValue tokens r.topLeftRadius,
             message := issueMessage "Map all corners to " "" "No token for "
               "px uniform radius." (findMatchingTokenByValue tokens r.topLeftRadius)
               r.topLeftRadius }] := by
        unfold checkRadiusNode
        simp [hS, hB]
      rw [hout]
      refine ⟨by simp [hS, hB, List.countP_cons], ?_, ?_, ?_, ?_⟩ <;>
        simp [hS, List.countP_cons]
    | true =>
      have hout : checkRadiusNode tokens r = [] := by
        unfold checkRadiusNode
        simp [hS, hB, radiiToCheck]
      rw [hout]
      refine ⟨by simp [hS, hB], ?_, ?_, ?_, ?_⟩ <;> simp [hS]
  | false =>
    have hout : checkRadiusNode tokens r =
        (radiiToCheck r).flatMap (fun x =>
          if (decide (0 < x.1) && !(isIndividualRadiusBound r x.2.2.2)) = true then
            [{ node := r, property := x.2.1, currentValue := x.1,
               matchingToken := findMatchingTokenByValue tokens x.1,
               message := issueMessage ("Map " ++ x.2.2.1 ++ " radius to ") ""
                 "No token for " ("px " ++ x.2.2.1 ++ " radius.")
                 (findMatchingTokenByValue tokens x.1) x.1 }]
          else []) := by
      unfold checkRadiusNode
      simp [hS]
    rw [hout]
    simp only [radiiToCheck, List.flatMap_cons, List.flatMap_nil, List.append_nil,
      List.countP_append]
    rw [countP_radius_segment, countP_radius_segment, countP_radius_segment,
      countP_radius_segment, countP_radius_segment, countP_radius_segment,
      countP_radius_segment, countP_radius_segment, countP_radius_segment,
      countP_radius_segment, countP_radius_segment, countP_radius_segment,
      countP_radius_segment, countP_radius_segment, countP_radius_segment,
      countP_radius_segment, countP_radius_segment, countP_radius_segment,
      countP_radius_segment, countP_radius_segment]
    refine ⟨by simp [hS], ?_, ?_, ?_, ?_⟩ <;>
      simp [RadiusNode.boundVariables, hS]

/-- Claim C2 witness: a fully-unbound uniform node yields exactly one
`borderRadiusAll` issue. -/
theorem C2_witness :
    (checkRadiusNode [] ⟨"rect", 4, 4, 4, 4, none, none, none, none⟩).countP
      (fun i => decide (i.property = RadiusIssueProp.borderRadiusAll)) = 1 := by
  rw [(C2_amended [] ⟨"rect", 4, 4, 4, 4, none, none, none, none⟩).1]
  decide

/-! ### Exact-value token matching (claim C7) -/

/-- Every entry of the value→token index maps a value to a token carrying
exactly that value. -/
theorem buildTokensByValue_exact (tokens : List SpacingToken) :
    ∀ p ∈ buildTokensByValue tokens, p.2.value = p.1 := by
  unfold buildTokensByValue
  suffices h : ∀ (l : List SpacingToken) (m : List (ℚ × SpacingToken)),
      (∀ p ∈ m, p.2.value = p.1) →
      ∀ p ∈ l.foldl (fun m t => qMapSet m t.value t) m, p.2.value = p.1 by
    exact h tokens [] (by simp)
  intro l
  induction l with
  | nil => intro m hm; simpa using hm
  | cons t rest ih =>
    intro m hm
    simp only [List.foldl_cons]
    refine ih (qMapSet m t.value t) ?_
    intro p hp
    unfold qMapSet at hp
    split at hp
    · rcases List.mem_map.mp hp with ⟨q, hq, rfl⟩
      split
      · simp
      · exact hm q hq
    · rcases List.mem_append.mp hp with h | h
      · exact hm p h
      · simp at h
        subst h
        simp

/-- A key is present in the index after `Map.set` iff it was present
before or equals the inserted key. -/
theorem qMapSet_keys (m : List (ℚ × SpacingToken)) (k v : ℚ) (t : SpacingToken) :
    (∃ p ∈ qMapSet m k t, p.1 = v) ↔ (∃ p ∈ m, p.1 = v) ∨ v = k := by
  unfold qMapSet
  split
  · rename_i hany
    rcases List.any_eq_true.mp hany with ⟨q0, hq0, hq0k⟩
    simp only [decide_eq_true_eq] at hq0k
    constructor
    · rintro ⟨p, hp, hv⟩
      rcases List.mem_map.mp hp with ⟨q, hq, rfl⟩
      by_cases hqk : q.1 = k
      · simp only [if_pos hqk] at hv
        exact Or.inl ⟨q, hq, by rw [hqk]; exact hv⟩
      · simp only [if_neg hqk] at hv
        exact Or.inl ⟨q, hq, hv⟩
    · rintro (⟨p, hp, hv⟩ | hvk)
      · by_cases hpk : p.1 = k
        · exact ⟨(k, t), List.mem_map.mpr ⟨q0, hq0, by simp [hq0k]⟩,
            by show k = v; rw [← hpk]; exact hv⟩
        · exact ⟨p, List.mem_map.mpr ⟨p, hp, by simp [hpk]⟩, hv⟩
      · exact ⟨(k, t), List.mem_map.mpr ⟨q0, hq0, by simp [hq0k]⟩, hvk.symm⟩
  · constructor
    · rintro ⟨p, hp, hv⟩
      rcases List.mem_append.mp hp with h | h
      · exact Or.inl ⟨p, h, hv⟩
      · simp at h
        subst h
        exact Or.inr hv.symm
    · rintro (⟨p, hp, hv⟩ | hvk)
      · exact ⟨p, List.mem_append_left _ hp, hv⟩
      · exact ⟨(k, t), List.mem_append_right _ (by simp), hvk.symm⟩

/-- A value is present in the built index iff some token carries it. -/
theorem buildTokensByValue_keys (tokens : List SpacingToken) (v : ℚ) :
    (∃ p ∈ buildTokensByValue tokens, p.1 = v) ↔ ∃ t ∈ tokens, t.value = v := by
  unfold buildTokensByValue
  suffices h : ∀ (l : List SpacingToken) (m : List (ℚ × SpacingToken)),
      (∃ p ∈ l.foldl (fun m t => qMapSet m t.value t) m, p.1 = v) ↔
        (∃ p ∈ m, p.1 = v) ∨ ∃ t ∈ l, t.value = v by
    rw [h tokens []]
    simp
  intro l
  induction l with
  | nil => intro m; simp
  | cons t rest ih =>
    intro m
    simp only [List.foldl_cons]
    rw [ih (qMapSet m t.value t), qMapSet_keys]
    constructor
    · rintro ((h | rfl) | h)
      · exact Or.inl h
      · exact Or.inr ⟨t, by simp⟩
      · rcases h with ⟨u, hu, huv⟩
        exact Or.inr ⟨u, by simp [hu], huv⟩
    · rintro (h | ⟨u, hu, huv⟩)
      · exact Or.inl (Or.inl h)
      · rcases List.mem_cons.mp hu with rfl | hu'
        · exact Or.inl (Or.inr huv.symm)
        · exact Or.inr ⟨u, hu', huv⟩

/-- Every spacing issue carries the exact-value lookup of its own observed
value as its matching token. -/
theorem checkAutoLayout_matching (tokens : List SpacingToken) (n : AutoLayoutNode) :
    ∀ i ∈ checkAutoLayout tokens n,
      i.matchingToken = findMatchingTokenByValue tokens i.currentValue := by
  intro i hi
  unfold checkAutoLayout at hi
  split at hi
  · rcases List.mem_append.mp hi with h | h
    · unfold itemSpacingIssues at h
      split at h <;> simp_all
    · unfold paddingIssuesOf at h
      split at h
      · simp_all
      · rcases List.mem_append.mp h with h2 | h2
        · unfold horizontalPaddingIssues at h2
          dsimp only [] at h2
          split at h2
          · simp_all
          · rcases List.mem_append.mp h2 with h3 | h3 <;> (split at h3 <;> simp_all)
        · unfold verticalPaddingIssues at h2
          dsimp only [] at h2
          split at h2
          · simp_all
          · rcases List.mem_append.mp h2 with h3 | h3 <;> (split at h3 <;> simp_all)
  · simp_all

/-- Every border-radius issue carries the exact-value lookup of its own
observed value as its matching token. -/
theorem checkRadiusNode_matching (tokens : List SpacingToken) (r : RadiusNode) :
    ∀ i ∈ checkRadiusNode tokens r,
      i.matchingToken = findMatchingTokenByValue tokens i.currentValue := by
  intro i hi
  unfold checkRadiusNode at hi
  dsimp only [] at hi
  split at hi
  · simp at hi
    subst hi
    rfl
  · rcases List.mem_flatMap.mp hi with ⟨x, hx, hix⟩
    split at hix
    · simp at hix
      subst hix
      rfl
    · simp at hix

/-- Claim C7: token matching is by exact value equality only — a lookup
hit always carries exactly the queried value, a lookup misses iff no token
has the queried value (no nearest-value or name-based fallback), every
emitted spacing/radius issue carries `matchingToken` equal to the exact
lookup of its raw observed value, and an issue is fixable exactly when
`matchingToken` is non-null. -/
theorem C7_exact_match_only (tokens : List SpacingToken) (v : ℚ) :
    (∀ t, findMatchingTokenByValue tokens v = some t → t.value = v) ∧
    (findMatchingTokenByValue tokens v = none ↔ ∀ t ∈ tokens, t.value ≠ v) ∧
    (∀ (n : AutoLayoutNode), ∀ i ∈ checkAutoLayout tokens n,
        i.matchingToken = findMatchingTokenByValue tokens i.currentValue) ∧
    (∀ (r : RadiusNode), ∀ i ∈ checkRadiusNode tokens r,
        i.matchingToken = findMatchingTokenByValue tokens i.currentValue) ∧
    (∀ i : SpacingIssue, issueIsFixable i = true ↔ i.matchingToken ≠ none) := by
  refine ⟨?_, ?_, checkAutoLayout_matching tokens, checkRadiusNode_matching tokens, ?_⟩
  · intro t ht
    unfold findMatchingTokenByValue qMapGet at ht
    rcases Option.map_eq_some'.mp ht with ⟨p, hfind, hpt⟩
    have hmem := List.mem_of_find?_eq_some hfind
    have hpred := List.find?_some hfind
    simp only [decide_eq_true_eq] at hpred
    rw [← hpt, buildTokensByValue_exact tokens p hmem, hpred]
  · unfold findMatchingTokenByValue qMapGet
    rw [Option.map_eq_none', List.find?_eq_none]
    constructor
    · intro h t hmem hval
      rcases (buildTokensByValue_keys tokens v).mpr ⟨t, hmem, hval⟩ with ⟨p, hp, hpv⟩
      exact h p hp (by simp [hpv])
    · intro h p hp hpv
      simp only [decide_eq_true_eq] at hpv
      rcases (buildTokensByValue_keys tokens v).mp ⟨p, hp, hpv⟩ with ⟨t, ht, htv⟩
      exact h t ht htv
  · intro i
    unfold issueIsFixable
    cases i.matchingToken <;> simp

/-- Claim C7 witness: with only an 8-px token available, a property value
of 9 has no matching token. -/
theorem C7_witness :
    findMatchingTokenByValue
      [⟨"V1", "k1", "space-8", 8,
        ⟨"V1", "k1", "space-8", VarResolvedType.FLOAT, [("m", VarValue.num 8)], "c"⟩⟩]
      9 = none := by
  refine (C7_exact_match_only _ 9).2.1.mpr ?_
  decide

/-- Every spacing issue a single node evaluation emits has a strictly
positive observed value: every emitting branch of `checkNode` is guarded by
a positivity test on the value it reports. -/
theorem checkAutoLayout_pos (tokens : List SpacingToken) (n : AutoLayoutNode) :
    ∀ i ∈ checkAutoLayout tokens n, 0 < i.currentValue := by
  intro i hi
  unfold checkAutoLayout at hi
  split at hi
  · rcases List.mem_append.mp hi with h | h
    · unfold itemSpacingIssues at h
      split at h <;> simp_all
    · unfold paddingIssuesOf at h
      split at h
      · rename_i hcond
        have hSame : allPaddingsSameAndPositive n = true := by
          simp only [Bool.and_eq_true] at hcond
          exact hcond.1.1.1.1
        have hpos : 0 < n.paddingTop := by
          unfold allPaddingsSameAndPositive at hSame
          simp only [Bool.and_eq_true, decide_eq_true_eq] at hSame
          exact hSame.1.1.1
        simp_all
      · rcases List.mem_append.mp h with h2 | h2
        · unfold horizontalPaddingIssues at h2
          dsimp only [] at h2
          split at h2
          · rename_i hcond
            simp only [Bool.and_eq_true, decide_eq_true_eq, Bool.not_eq_true'] at hcond
            simp only [List.mem_singleton] at h2
            subst h2
            exact hcond.1.1.1
          · rcases List.mem_append.mp h2 with h3 | h3 <;> (split at h3 <;> simp_all)
        · unfold verticalPaddingIssues at h2
          dsimp only [] at h2
          split at h2
          · rename_i hcond
            simp only [Bool.and_eq_true, decide_eq_true_eq, Bool.not_eq_true'] at hcond
            simp only [List.mem_singleton] at h2
            subst h2
            exact hcond.1.1.1
          · rcases List.mem_append.mp h2 with h3 | h3 <;> (split at h3 <;> simp_all)
  · simp_all

/-- Every border-radius issue a single node evaluation emits has a
strictly positive observed value. -/
theorem checkRadiusNode_pos (tokens : List SpacingToken) (r : RadiusNode) :
    ∀ i ∈ checkRadiusNode tokens r, 0 < i.currentValue := by
  intro i hi
  unfold checkRadiusNode at hi
  dsimp only [] at hi
  split at hi
  · rename_i hcond
    have hS : areAllRadiiSameAndPositive r = true := by
      simp only [Bool.and_eq_true] at hcond
      exact hcond.1
    have hpos : 0 < r.topLeftRadius := by
      unfold areAllRadiiSameAndPositive at hS
      simp only [Bool.and_eq_true, decide_eq_true_eq] at hS
      exact hS.1.1.1
    simp_all
  · rcases List.mem_flatMap.mp hi with ⟨x, hx, hix⟩
    split at hix <;> simp_all

mutual

/-- Positivity of every spacing issue emitted while walking one scene
node. -/
theorem checkNodeSpacing_pos (tokens : List SpacingToken) :
    ∀ (t : SceneNode), ∀ i ∈ checkNodeSpacing tokens t, 0 < i.currentValue
  | SceneNode.node auto radius children => by
    intro i hi
    unfold checkNodeSpacing at hi
    rcases List.mem_append.mp hi with h | h
    · cases auto with
      | some a => exact checkAutoLayout_pos tokens a i h
      | none => simp at h
    · exact checkNodesSpacing_pos tokens children i h

/-- Positivity over a child list. -/
theorem checkNodesSpacing_pos (tokens : List SpacingToken) :
    ∀ (l : List SceneNode), ∀ i ∈ checkNodesSpacing tokens l, 0 < i.currentValue
  | [] => by
    intro i hi
    simp [checkNodesSpacing] at hi
  | c :: cs => by
    intro i hi
    unfold checkNodesSpacing at hi
    rcases List.mem_append.mp hi with h | h
    · exact checkNodeSpacing_pos tokens c i h
    · exact checkNodesSpacing_pos tokens cs i h

end

mutual

/-- Positivity of every radius issue emitted while walking one scene
node. -/
theorem checkNodeRadius_pos (tokens : List SpacingToken) :
    ∀ (t : SceneNode), ∀ i ∈ checkNodeRadius tokens t, 0 < i.currentValue
  | SceneNode.node auto radius children => by
    intro i hi
    unfold checkNodeRadius at hi
    rcases List.mem_append.mp hi with h | h
    · cases radius with
      | some r => exact checkRadiusNode_pos tokens r i h
      | none => simp at h
    · exact checkNodesRadius_pos tokens children i h

/-- Positivity over a child list (radius pass). -/
theorem checkNodesRadius_pos (tokens : List SpacingToken) :
    ∀ (l : List SceneNode), ∀ i ∈ checkNodesRadius tokens l, 0 < i.currentValue
  | [] => by
    intro i hi
    simp [checkNodesRadius] at hi
  | c :: cs => by
    intro i hi
    unfold checkNodesRadius at hi
    rcases List.mem_append.mp hi with h | h
    · exact checkNodeRadius_pos tokens c i h
    · exact checkNodesRadius_pos tokens cs i h

end

/-- Claim C10: every issue emitted by a spacing or border-radius detection
pass has a strictly positive `currentValue`; no issue is ever emitted for a
property whose observed value is zero or negative. -/
theorem C10_issues_positive (tokens : List SpacingToken) (nodesToCheck : List SceneNode) :
    (∀ i ∈ findSpacingIssues tokens nodesToCheck, 0 < i.currentValue) ∧
    (∀ i ∈ findBorderRadiusIssues tokens nodesToCheck, 0 < i.currentValue) :=
  ⟨fun i hi => checkNodesSpacing_pos tokens nodesToCheck i hi,
   fun i hi => checkNodesRadius_pos tokens nodesToCheck i hi⟩

/-- Claim C10 witness: the issue detected for a concrete 16-px gap has a
positive observed value. -/
theorem C10_witness :
    (0 : ℚ) < (SpacingIssue.mk
      ⟨"row", LayoutMode.HORIZONTAL, 16, 0, 0, 0, 0, none, none, none, none, none⟩
      SpacingIssueProp.itemSpacing 16 none "No exact token for 16px gap.").currentValue := by
  refine (C10_issues_positive []
    [SceneNode.node
      (some ⟨"row", LayoutMode.HORIZONTAL, 16, 0, 0, 0, 0, none, none, none, none, none⟩)
      none []]).1 _ ?_
  decide

/-- One fix-loop iteration increments `fixedCount` by at most one, and
only for an issue with a matching token. -/
theorem fixSpacingStep_fst_le {σ : Type}
    (bindOp : σ → AutoLayoutNode → SpacingField → SpacingToken → Bool × σ)
    (acc : ℕ × σ) (issue : SpacingIssue) :
    (fixSpacingStep bindOp acc issue).1
      ≤ acc.1 + (if issue.matchingToken.isSome = true then 1 else 0) := by
  unfold fixSpacingStep
  cases h : issue.matchingToken with
  | none => simp [h]
  | some tok =>
    simp only [h, Option.isSome_some]
    split <;> simp

/-- The fix loop increments `fixedCount` at most once per issue with a
matching token. -/
theorem fixSpacing_foldl_le {σ : Type}
    (bindOp : σ → AutoLayoutNode → SpacingField → SpacingToken → Bool × σ) :
    ∀ (issues : List SpacingIssue) (acc : ℕ × σ),
      (issues.foldl (fixSpacingStep bindOp) acc).1
        ≤ acc.1 + issues.countP (fun i => i.matchingToken.isSome)
  | [], acc => by simp
  | issue :: rest, acc => by
    simp only [List.foldl_cons, List.countP_cons]
    have h1 := fixSpacing_foldl_le bindOp rest (fixSpacingStep bindOp acc issue)
    have h2 := fixSpacingStep_fst_le bindOp acc issue
    omega

/-- One radius fix-loop iteration increments `fixedCount` by at most one. -/
theorem fixBorderRadiusStep_fst_le {σ : Type}
    (bindOp : σ → RadiusNode → RadiusField → SpacingToken → Bool × σ)
    (acc : ℕ × σ) (issue : RadiusIssue) :
    (fixBorderRadiusStep bindOp acc issue).1
      ≤ acc.1 + (if issue.matchingToken.isSome = true then 1 else 0) := by
  unfold fixBorderRadiusStep
  cases h : issue.matchingToken with
  | none => simp [h]
  | some tok =>
    simp only [h, Option.isSome_some]
    split <;> simp

/-- The radius fix loop increments `fixedCount` at most once per issue
with a matching token. -/
theorem fixRadius_foldl_le {σ : Type}
    (bindOp : σ → RadiusNode → RadiusField → SpacingToken → Bool × σ) :
    ∀ (issues : List RadiusIssue) (acc : ℕ × σ),
      (issues.foldl (fixBorderRadiusStep bindOp) acc).1
        ≤ acc.1 + issues.countP (fun i => i.matchingToken.isSome)
  | [], acc => by simp
  | issue :: rest, acc => by
    simp only [List.foldl_cons, List.countP_cons]
    have h1 := fixRadius_foldl_le bindOp rest (fixBorderRadiusStep bindOp acc issue)
    have h2 := fixBorderRadiusStep_fst_le bindOp acc issue
    omega

/-- Claim C4 counterexample: one detected spacing issue with a matching
16-px token whose binding attempt fails (the host bind operation returns
`false`, i.e. `trySetBoundVariable` threw or its verification failed).
The issue is counted in neither `fixedCount` nor `unfixableCount`, so
`fixedCount + unfixableCount = 0 ≠ 1 =` the number of detected issues. -/
theorem C4_counterexample :
    ((findSpacingIssues
        [⟨"V1", "k1", "space-16", 16,
          ⟨"V1", "k1", "space-16", VarResolvedType.FLOAT, [("m", VarValue.num 16)], "c"⟩⟩]
        [SceneNode.node
          (some ⟨"row", LayoutMode.HORIZONTAL, 16, 0, 0, 0, 0, none, none, none, none, none⟩)
          none []]).length = 1) ∧
    ((findSpacingIssues
        [⟨"V1", "k1", "space-16", 16,
          ⟨"V1", "k1", "space-16", VarResolvedType.FLOAT, [("m", VarValue.num 16)], "c"⟩⟩]
        [SceneNode.node
          (some ⟨"row", LayoutMode.HORIZONTAL, 16, 0, 0, 0, 0, none, none, none, none, none⟩)
          none []]).countP (fun i => i.matchingToken.isNone) = 0) ∧
    (fixSpacingIssues (fun (_ : Unit) _ _ _ => (false, ())) ()
        [⟨"V1", "k1", "space-16", 16,
          ⟨"V1", "k1", "space-16", VarResolvedType.FLOAT, [("m", VarValue.num 16)], "c"⟩⟩]
        [SceneNode.node
          (some ⟨"row", LayoutMode.HORIZONTAL, 16, 0, 0, 0, 0, none, none, none, none, none⟩)
          none []]).1 = 0 ∧
    (fixSpacingIssues (fun (_ : Unit) _ _ _ => (false, ())) ()
        [⟨"V1", "k1", "space-16", 16,
          ⟨"V1", "k1", "space-16", VarResolvedType.FLOAT, [("m", VarValue.num 16)], "c"⟩⟩]
        [SceneNode.node
          (some ⟨"row", LayoutMode.HORIZONTAL, 16, 0, 0, 0, 0, none, none, none, none, none⟩)
          none []]).2.1 = 0 := by
  refine ⟨?_, ?_, ?_, ?_⟩ <;> rfl

/-- Claim C4 (amended): in `fixSpacingIssues` / `fixBorderRadiusIssues`,
`unfixableCount` counts exactly the detected issues with no matching
token; an issue whose set-binding call throws or whose verification fails
is counted in neither aggregate, so `fixedCount + unfixableCount` is at
most (not always equal to) the number of detected issues. -/
theorem C4_amended {σ : Type}
    (bindOp : σ → AutoLayoutNode → SpacingField → SpacingToken → Bool × σ)
    (bindRadiusOp : σ → RadiusNode → RadiusField → SpacingToken → Bool × σ)
    (s0 : σ) (tokens : List SpacingToken) (nodesToCheck : List SceneNode) :
    ((fixSpacingIssues bindOp s0 tokens nodesToCheck).2.1
      = (findSpacingIssues tokens nodesToCheck).countP (fun i => i.matchingToken.isNone)) ∧
    ((fixSpacingIssues bindOp s0 tokens nodesToCheck).1
        + (fixSpacingIssues bindOp s0 tokens nodesToCheck).2.1
      ≤ (findSpacingIssues tokens nodesToCheck).length) ∧
    ((fixBorderRadiusIssues bindRadiusOp s0 tokens nodesToCheck).2.1
      = (findBorderRadiusIssues tokens nodesToCheck).countP (fun i => i.matchingToken.isNone)) ∧
    ((fixBorderRadiusIssues bindRadiusOp s0 tokens nodesToCheck).1
        + (fixBorderRadiusIssues bindRadiusOp s0 tokens nodesToCheck).2.1
      ≤ (findBorderRadiusIssues tokens nodesToCheck).length) := by
  refine ⟨rfl, ?_, rfl, ?_⟩
  · have h1 := fixSpacing_foldl_le bindOp (findSpacingIssues tokens nodesToCheck) (0, s0)
    have h2 : (findSpacingIssues tokens nodesToCheck).length
        = (findSpacingIssues tokens nodesToCheck).countP (fun i => i.matchingToken.isSome)
          + (findSpacingIssues tokens nodesToCheck).countP (fun i => i.matchingToken.isNone) := by
      rw [List.length_eq_countP_add_countP (fun i => i.matchingToken.isSome)]
      congr 1
      exact List.countP_congr (fun i _ => by cases i.matchingToken <;> simp)
    rw [h2]
    have h3 : (fixSpacingIssues bindOp s0 tokens nodesToCheck).1
        ≤ (findSpacingIssues tokens nodesToCheck).countP (fun i => i.matchingToken.isSome) := by
      simpa using h1
    have h4 : (fixSpacingIssues bindOp s0 tokens nodesToCheck).2.1
        = (findSpacingIssues tokens nodesToCheck).countP (fun i => i.matchingToken.isNone) := rfl
    omega
  · have h1 := fixRadius_foldl_le bindRadiusOp (findBorderRadiusIssues tokens nodesToCheck) (0, s0)
    have h2 : (findBorderRadiusIssues tokens nodesToCheck).length
        = (findBorderRadiusIssues tokens nodesToCheck).countP (fun i => i.matchingToken.isSome)
          + (findBorderRadiusIssues tokens nodesToCheck).countP (fun i => i.matchingToken.isNone) := by
      rw [List.length_eq_countP_add_countP (fun i => i.matchingToken.isSome)]
      congr 1
      exact List.countP_congr (fun i _ => by cases i.matchingToken <;> simp)
    rw [h2]
    have h3 : (fixBorderRadiusIssues bindRadiusOp s0 tokens nodesToCheck).1
        ≤ (findBorderRadiusIssues tokens nodesToCheck).countP (fun i => i.matchingToken.isSome) := by
      simpa using h1
    have h4 : (fixBorderRadiusIssues bindRadiusOp s0 tokens nodesToCheck).2.1
        = (findBorderRadiusIssues tokens nodesToCheck).countP (fun i => i.matchingToken.isNone) := rfl
    omega

/-- Claim C4 witness: the amended bound at the counterexample input. -/
theorem C4_witness :
    (fixSpacingIssues (fun (_ : Unit) _ _ _ => (false, ())) ()
        [⟨"V1", "k1", "space-16", 16,
          ⟨"V1", "k1", "space-16", VarResolvedType.FLOAT, [("m", VarValue.num 16)], "c"⟩⟩]
        [SceneNode.node
          (some ⟨"row", LayoutMode.HORIZONTAL, 16, 0, 0, 0, 0, none, none, none, none, none⟩)
          none []]).1
      + (fixSpacingIssues (fun (_ : Unit) _ _ _ => (false, ())) ()
        [⟨"V1", "k1", "space-16", 16,
          ⟨"V1", "k1", "space-16", VarResolvedType.FLOAT, [("m", VarValue.num 16)], "c"⟩⟩]
        [SceneNode.node
          (some ⟨"row", LayoutMode.HORIZONTAL, 16, 0, 0, 0, 0, none, none, none, none, none⟩)
          none []]).2.1
      ≤ (findSpacingIssues
        [⟨"V1", "k1", "space-16", 16,
          ⟨"V1", "k1", "space-16", VarResolvedType.FLOAT, [("m", VarValue.num 16)], "c"⟩⟩]
        [SceneNode.node
          (some ⟨"row", LayoutMode.HORIZONTAL, 16, 0, 0, 0, 0, none, none, none, none, none⟩)
          none []]).length := by
  exact (C4_amended (fun (_ : Unit) _ _ _ => (false, ()))
    (fun (_ : Unit) _ _ _ => (false, ())) () _ _).2.1

/-- Claim C3 counterexample: in the dist variant, populate the spacing
cache for scope key "all" at time 0, then call again at time 600000 (10
minutes later, past the 5-minute TTL) without `forceRefresh`.  The claim
says such a call always re-runs the aggregation; the per-collection cache
consults no timestamp, so the stale entry is returned and no aggregation
happens (third component `false`). -/
theorem C3_counterexample :
    CACHE_DURATION ≤ 600000 - 0 ∧
    (getSpacingVariablesDist
      (getSpacingVariablesDist ⟨[], [], none, 0, none, 0⟩ 0 false none []).2.1
      600000 false none []).2.2 = false ∧
    (getSpacingVariablesDist
      (getSpacingVariablesDist ⟨[], [], none, 0, none, 0⟩ 0 false none []).2.1
      600000 false none []).1
      = (getSpacingVariablesDist ⟨[], [], none, 0, none, 0⟩ 0 false none []).1 := by
  refine ⟨by decide, rfl, rfl⟩

/-- Claim C3 (amended): a call within the TTL (ts variant) or with a
present cache entry (dist variants) and without `forceRefresh` returns the
cached list and performs no aggregation, and a `forceRefresh` call always
re-aggregates — but the 5-minute TTL governs only the legacy single-slot
cache of `src/code.ts`; the per-collection caches of the dist
`getSpacingVariables` / `getBorderRadiusVariables` consult no timestamp,
so an expired entry is still returned unless `forceRefresh` is set (in the
ts variant alone, a call after TTL expiry does re-aggregate). -/
theorem C3_amended (st : TsSpacingCache) (dst : DistCache) (now : ℕ) (forceRefresh : Bool)
    (filterByCollectionId : Option String) (allResolvedVariables : List Variable)
    (cached : List SpacingToken) :
    (st.cachedSpacingTokens = some cached → forceRefresh = false →
      now - st.cacheTimestamp < CACHE_DURATION →
      getSpacingVariablesTs st now forceRefresh allResolvedVariables = (cached, st, false)) ∧
    (forceRefresh = true ∨ CACHE_DURATION ≤ now - st.cacheTimestamp →
      (getSpacingVariablesTs st now forceRefresh allResolvedVariables).2.2 = true ∧
      (getSpacingVariablesTs st now forceRefresh allResolvedVariables).1
        = spacingTokensOf none allResolvedVariables) ∧
    (forceRefresh = false →
      mapGetStr dst.spacingByCollection (filterByCollectionId.getD "all") = some cached →
      getSpacingVariablesDist dst now forceRefresh filterByCollectionId allResolvedVariables
        = (cached, dst, false)) ∧
    (forceRefresh = true →
      (getSpacingVariablesDist dst now forceRefresh filterByCollectionId
        allResolvedVariables).2.2 = true ∧
      (getSpacingVariablesDist dst now forceRefresh filterByCollectionId
        allResolvedVariables).1
        = spacingTokensOf filterByCollectionId allResolvedVariables) ∧
    (forceRefresh = false →
      mapGetStr dst.borderRadiusByCollection (filterByCollectionId.getD "all") = some cached →
      getBorderRadiusVariablesDist dst now forceRefresh filterByCollectionId
        allResolvedVariables = (cached, dst, false)) ∧
    (forceRefresh = true →
      (getBorderRadiusVariablesDist dst now forceRefresh filterByCollectionId
        allResolvedVariables).2.2 = true ∧
      (getBorderRadiusVariablesDist dst now forceRefresh filterByCollectionId
        allResolvedVariables).1
        = borderRadiusTokensOf filterByCollectionId allResolvedVariables) := by
  refine ⟨?_, ?_, ?_, ?_, ?_, ?_⟩
  · intro hc hf ht
    simp [getSpacingVariablesTs, hc, hf, ht]
  · intro h
    have hcond : ¬(forceRefresh = false ∧ now - st.cacheTimestamp < CACHE_DURATION) := by
      rintro ⟨hf, ht⟩
      rcases h with h | h
      · rw [h] at hf
        exact absurd hf (by simp)
      · omega
    unfold getSpacingVariablesTs
    split
    · rw [if_neg hcond]
      exact ⟨rfl, rfl⟩
    · exact ⟨rfl, rfl⟩
  · intro hf hc
    simp [getSpacingVariablesDist, hf, hc]
  · intro hf
    refine ⟨?_, ?_⟩ <;> simp [getSpacingVariablesDist, hf]
  · intro hf hc
    simp [getBorderRadiusVariablesDist, hf, hc]
  · intro hf
    refine ⟨?_, ?_⟩ <;> simp [getBorderRadiusVariablesDist, hf]

/-- Claim C3 witness: the within-TTL hit and the forced re-aggregation at
concrete inputs. -/
theorem C3_witness :
    (getSpacingVariablesTs ⟨some [], 0⟩ 1000 false [] = ([], ⟨some [], 0⟩, false)) ∧
    (getSpacingVariablesDist ⟨[("all", [])], [], none, 0, none, 0⟩ 0 true none []).2.2 = true := by
  constructor
  · exact (C3_amended ⟨some [], 0⟩ ⟨[], [], none, 0, none, 0⟩ 1000 false none [] []).1
      rfl rfl (by decide)
  · exact ((C3_amended ⟨some [], 0⟩ ⟨[("all", [])], [], none, 0, none, 0⟩ 0 true none [] []).2.2.2.1
      rfl).1

/-! ### Aggregator dedup (claim C6) -/

/-- The predicate `hasKey` is the existence of a member with that key. -/
theorem hasKey_iff (acc : List Variable) (k : String) :
    hasKey acc k = true ↔ ∃ w ∈ acc, w.key = k := by
  simp [hasKey, List.any_eq_true]

/-- A `find?` call hits when a member satisfies the predicate. -/
theorem find?_isSome_of_mem {α : Type} (p : α → Bool) :
    ∀ (l : List α) (a : α), a ∈ l → p a = true → (l.find? p).isSome = true
  | b :: l, a, ha, hp => by
    by_cases hb : p b = true
    · simp [List.find?_cons_of_pos _ hb]
    · rcases List.mem_cons.mp ha with rfl | ha'
      · exact absurd hp hb
      · rw [List.find?_cons_of_neg _ (by simpa using hb)]
        exact find?_isSome_of_mem p l a ha' hp

/-- A hit in the first part of an append hides the second part. -/
theorem find?_append_isSome {α : Type} (p : α → Bool) :
    ∀ (l₁ l₂ : List α), (l₁.find? p).isSome = true →
      (l₁ ++ l₂).find? p = l₁.find? p
  | [], _, h => by simp at h
  | a :: l₁, l₂, h => by
    by_cases ha : p a = true
    · simp [List.find?_cons_of_pos _ ha]
    · rw [List.find?_cons_of_neg _ (by simpa using ha)] at h
      rw [List.cons_append, List.find?_cons_of_neg _ (by simpa using ha),
        List.find?_cons_of_neg _ (by simpa using ha)]
      exact find?_append_isSome p l₁ l₂ h

/-- A miss in the first part of an append defers to the second part. -/
theorem find?_append_none {α : Type} (p : α → Bool) :
    ∀ (l₁ l₂ : List α), l₁.find? p = none → (l₁ ++ l₂).find? p = l₂.find? p
  | [], _, _ => by simp
  | a :: l₁, l₂, h => by
    by_cases ha : p a = true
    · rw [List.find?_cons_of_pos _ ha] at h
      exact absurd h (by simp)
    · rw [List.find?_cons_of_neg _ (by simpa using ha)] at h
      rw [List.cons_append, List.find?_cons_of_neg _ (by simpa using ha)]
      exact find?_append_none p l₁ l₂ h

/-- A present key stays present after an insertion attempt. -/
theorem hasKey_insertIfNewKey (acc : List Variable) (v : Variable) (k : String)
    (h : hasKey acc k = true) : hasKey (insertIfNewKey acc v) k = true := by
  unfold insertIfNewKey
  split
  · exact h
  · rcases (hasKey_iff acc k).mp h with ⟨w, hw, hwk⟩
    exact (hasKey_iff _ k).mpr ⟨w, List.mem_append_left _ hw, hwk⟩

/-- Key-uniqueness is preserved by an insertion attempt. -/
theorem nodup_insertIfNewKey (acc : List Variable) (v : Variable)
    (h : (acc.map Variable.key).Nodup) :
    ((insertIfNewKey acc v).map Variable.key).Nodup := by
  unfold insertIfNewKey
  split
  · exact h
  · rename_i hnk
    rw [List.map_append, List.nodup_append]
    refine ⟨h, by simp, ?_⟩
    intro x hx hx2
    simp at hx2
    subst hx2
    rcases List.mem_map.mp hx with ⟨w, hw, hwk⟩
    exact hnk ((hasKey_iff acc v.key).mpr ⟨w, hw, hwk⟩)

/-- The first record found for an already-present key is unchanged by an
insertion attempt. -/
theorem find?_insertIfNewKey (acc : List Variable) (v : Variable) (k : String)
    (h : hasKey acc k = true) :
    (insertIfNewKey acc v).find? (fun w => decide (w.key = k))
      = acc.find? (fun w => decide (w.key = k)) := by
  unfold insertIfNewKey
  split
  · rfl
  · apply find?_append_isSome
    rcases (hasKey_iff acc k).mp h with ⟨w, hw, hwk⟩
    exact find?_isSome_of_mem _ acc w hw (by simp [hwk])

/-- A present key stays present after processing one library stub. -/
theorem hasKey_processLibStub (resolve : LibStub → Option Variable)
    (acc : List Variable) (s : LibStub) (k : String)
    (h : hasKey acc k = true) : hasKey (processLibStub resolve acc s) k = true := by
  unfold processLibStub
  split
  · exact h
  · cases hres : resolve s with
    | none => exact h
    | some v => exact hasKey_insertIfNewKey acc v k h

/-- Key-uniqueness is preserved by processing one library stub. -/
theorem nodup_processLibStub (resolve : LibStub → Option Variable)
    (acc : List Variable) (s : LibStub)
    (h : (acc.map Variable.key).Nodup) :
    ((processLibStub resolve acc s).map Variable.key).Nodup := by
  unfold processLibStub
  split
  · exact h
  · cases hres : resolve s with
    | none => exact h
    | some v => exact nodup_insertIfNewKey acc v h

/-- The first record found for an already-present key is unchanged by
processing one library stub. -/
theorem find?_processLibStub (resolve : LibStub → Option Variable)
    (acc : List Variable) (s : LibStub) (k : String)
    (h : hasKey acc k = true) :
    (processLibStub resolve acc s).find? (fun w => decide (w.key = k))
      = acc.find? (fun w => decide (w.key = k)) := by
  unfold processLibStub
  split
  · rfl
  · cases hres : resolve s with
    | none => rfl
    | some v => exact find?_insertIfNewKey acc v k h

/-- Presence, key-uniqueness and first-found stability through a whole
stub list. -/
theorem foldl_processLibStub_props (resolve : LibStub → Option Variable) (k : String) :
    ∀ (stubs : List LibStub) (acc : List Variable),
      ((acc.map Variable.key).Nodup →
        ((stubs.foldl (processLibStub resolve) acc).map Variable.key).Nodup) ∧
      (hasKey acc k = true →
        hasKey (stubs.foldl (processLibStub resolve) acc) k = true ∧
        (stubs.foldl (processLibStub resolve) acc).find? (fun w => decide (w.key = k))
          = acc.find? (fun w => decide (w.key = k)))
  | [], acc => ⟨fun h => h, fun h => ⟨h, rfl⟩⟩
  | s :: rest, acc => by
    refine ⟨?_, ?_⟩
    · intro h
      exact (foldl_processLibStub_props resolve k rest (processLibStub resolve acc s)).1
        (nodup_processLibStub resolve acc s h)
    · intro h
      have h1 := hasKey_processLibStub resolve acc s k h
      have h2 := (foldl_processLibStub_props resolve k rest (processLibStub resolve acc s)).2 h1
      exact ⟨h2.1, h2.2.trans (find?_processLibStub resolve acc s k h)⟩

/-- Presence, key-uniqueness and first-found stability through the whole
library phase. -/
theorem foldl_libs_props (resolve : LibStub → Option Variable)
    (isRelevantName : LibStub → Bool) (k : String) :
    ∀ (libs : List (List LibStub)) (acc : List Variable),
      ((acc.map Variable.key).Nodup →
        ((libs.foldl (fun acc coll =>
          (coll.filter isRelevantName).foldl (processLibStub resolve) acc) acc).map
            Variable.key).Nodup) ∧
      (hasKey acc k = true →
        (libs.foldl (fun acc coll =>
          (coll.filter isRelevantName).foldl (processLibStub resolve) acc) acc).find?
            (fun w => decide (w.key = k))
          = acc.find? (fun w => decide (w.key = k)))
  | [], acc => ⟨fun h => h, fun _ => rfl⟩
  | coll :: rest, acc => by
    refine ⟨?_, ?_⟩
    · intro h
      exact (foldl_libs_props resolve isRelevantName k rest _).1
        ((foldl_processLibStub_props resolve k (coll.filter isRelevantName) acc).1 h)
    · intro h
      have h1 := (foldl_processLibStub_props resolve k (coll.filter isRelevantName) acc).2 h
      have h2 := (foldl_libs_props resolve isRelevantName k rest
        ((coll.filter isRelevantName).foldl (processLibStub resolve) acc)).2 h1.1
      exact h2.trans h1.2

/-- Key-uniqueness of the local phase. -/
theorem foldl_insertIfNewKey_nodup :
    ∀ (locals : List Variable) (acc : List Variable),
      (acc.map Variable.key).Nodup →
      ((locals.foldl insertIfNewKey acc).map Variable.key).Nodup
  | [], _, h => h
  | v :: rest, acc, h =>
    foldl_insertIfNewKey_nodup rest (insertIfNewKey acc v) (nodup_insertIfNewKey acc v h)

/-- The local phase finds, for any key, the accumulator's record if the
key was already present, else the first local record with that key. -/
theorem foldl_insertIfNewKey_find? (k : String) :
    ∀ (locals : List Variable) (acc : List Variable),
      (locals.foldl insertIfNewKey acc).find? (fun w => decide (w.key = k))
        = match acc.find? (fun w => decide (w.key = k)) with
          | some x => some x
          | none => locals.find? (fun w => decide (w.key = k))
  | [], acc => by
    cases h : acc.find? (fun w => decide (w.key = k)) <;> simp [h]
  | v :: rest, acc => by
    rw [List.foldl_cons, foldl_insertIfNewKey_find? k rest (insertIfNewKey acc v)]
    by_cases hk : hasKey acc v.key = true
    · rw [show insertIfNewKey acc v = acc from by unfold insertIfNewKey; rw [if_pos hk]]
      cases hacc : acc.find? (fun w => decide (w.key = k)) with
      | some x => simp
      | none =>
        by_cases hv : v.key = k
        · exfalso
          rcases (hasKey_iff acc v.key).mp hk with ⟨w, hw, hwk⟩
          have := find?_isSome_of_mem (fun w => decide (w.key = k)) acc w hw
            (by simp [hwk, hv])
          rw [hacc] at this
          simp at this
        · rw [List.find?_cons_of_neg _ (by simp [hv])]
    · rw [show insertIfNewKey acc v = acc ++ [v] from by unfold insertIfNewKey; rw [if_neg hk]]
      cases hacc : acc.find? (fun w => decide (w.key = k)) with
      | some x =>
        rw [find?_append_isSome _ acc [v] (by simp [hacc]), hacc]
      | none =>
        rw [find?_append_none _ acc [v] hacc]
        by_cases hv : v.key = k
        · have hpv : decide (v.key = k) = true := by simp [hv]
          simp only [List.find?_cons, hpv]
        · have hpv : decide (v.key = k) = false := by simp [hv]
          simp only [List.find?_cons, hpv]
          simp

/-- With key-unique records, at most one record carries any given key. -/
theorem countP_key_le_one :
    ∀ (l : List Variable) (k : String), (l.map Variable.key).Nodup →
      l.countP (fun w => decide (w.key = k)) ≤ 1
  | [], _, _ => by simp
  | w :: rest, k, h => by
    rw [List.map_cons, List.nodup_cons] at h
    rw [List.countP_cons]
    by_cases hw : w.key = k
    · have hzero : rest.countP (fun x => decide (x.key = k)) = 0 := by
        rw [List.countP_eq_zero]
        intro x hx
        simp only [decide_eq_true_eq]
        intro hxk
        exact h.1 (List.mem_map.mpr ⟨x, hx, by rw [hxk, hw]⟩)
      simp [hzero, hw]
    · have := countP_key_le_one rest k h.2
      simp only [decide_eq_true_eq, hw]
      simpa using this

/-- Claim C6: the aggregator deduplicates by natural key — its output's
keys are pairwise distinct, and for every local record the output contains
exactly one record with that key, namely the first-seen one (the first
local record with that key; the local store is consulted before any
library). -/
theorem C6_aggregator_dedup (locals : List Variable) (libs : List (List LibStub))
    (isRelevantName : LibStub → Bool) (resolve : LibStub → Option Variable) :
    ((getAllVariablesAndImportLibraries locals libs isRelevantName resolve).map
        Variable.key).Nodup ∧
    ∀ v ∈ locals,
      ((getAllVariablesAndImportLibraries locals libs isRelevantName resolve).countP
          (fun w => decide (w.key = v.key)) = 1) ∧
      ((getAllVariablesAndImportLibraries locals libs isRelevantName resolve).find?
          (fun w => decide (w.key = v.key))
        = locals.find? (fun w => decide (w.key = v.key))) := by
  have hAnodup : (((locals.foldl insertIfNewKey []).map Variable.key)).Nodup :=
    foldl_insertIfNewKey_nodup locals [] (by simp)
  constructor
  · exact (foldl_libs_props resolve isRelevantName "" libs
      (locals.foldl insertIfNewKey [])).1 hAnodup
  · intro v hv
    have hAfind : (locals.foldl insertIfNewKey []).find? (fun w => decide (w.key = v.key))
        = locals.find? (fun w => decide (w.key = v.key)) := by
      rw [foldl_insertIfNewKey_find? v.key locals []]
      rfl
    have hlocfind : ((locals.find? (fun w => decide (w.key = v.key))).isSome) = true :=
      find?_isSome_of_mem _ locals v hv (by simp)
    have hAfindSome : ((locals.foldl insertIfNewKey []).find?
        (fun w => decide (w.key = v.key))).isSome = true := by
      rw [hAfind]
      exact hlocfind
    have hAhas : hasKey (locals.foldl insertIfNewKey []) v.key = true := by
      rcases Option.isSome_iff_exists.mp hAfindSome with ⟨x, hx⟩
      have hmem := List.mem_of_find?_eq_some hx
      have hpred := List.find?_some hx
      simp only [decide_eq_true_eq] at hpred
      exact (hasKey_iff _ v.key).mpr ⟨x, hmem, hpred⟩
    have houtfind := (foldl_libs_props resolve isRelevantName v.key libs
      (locals.foldl insertIfNewKey [])).2 hAhas
    have houtnodup := (foldl_libs_props resolve isRelevantName v.key libs
      (locals.foldl insertIfNewKey [])).1 hAnodup
    refine ⟨?_, houtfind.trans hAfind⟩
    have hle := countP_key_le_one _ v.key houtnodup
    have hdef : getAllVariablesAndImportLibraries locals libs isRelevantName resolve
        = libs.foldl (fun acc coll =>
            (coll.filter isRelevantName).foldl (processLibStub resolve) acc)
          (locals.foldl insertIfNewKey []) := rfl
    have hsome : ((getAllVariablesAndImportLibraries locals libs isRelevantName
        resolve).find? (fun w => decide (w.key = v.key))).isSome = true := by
      rw [hdef, houtfind.trans hAfind]
      exact hlocfind
    rcases Option.isSome_iff_exists.mp hsome with ⟨x, hx⟩
    have hmem := List.mem_of_find?_eq_some hx
    have hpred := List.find?_some hx
    have hpos : 0 < (getAllVariablesAndImportLibraries locals libs isRelevantName
        resolve).countP (fun w => decide (w.key = v.key)) :=
      List.countP_pos_iff.mpr ⟨x, hmem, hpred⟩
    have : (getAllVariablesAndImportLibraries locals libs isRelevantName
        resolve).countP (fun w => decide (w.key = v.key)) ≤ 1 := hle
    omega

/-- Claim C6 witness: a local record and a same-key library stub collapse
to one output record, the local one. -/
theorem C6_witness :
    (getAllVariablesAndImportLibraries
      [⟨"id1", "K", "space-8", VarResolvedType.FLOAT, [("m", VarValue.num 8)], "c"⟩]
      [[⟨"K", "space-8-lib"⟩]] (fun _ => true)
      (fun s => some ⟨"id2", s.key, s.name, VarResolvedType.FLOAT,
        [("m", VarValue.num 8)], "lib"⟩)).countP
      (fun w => decide (w.key =
        (⟨"id1", "K", "space-8", VarResolvedType.FLOAT, [("m", VarValue.num 8)], "c"⟩
          : Variable).key)) = 1 := by
  exact ((C6_aggregator_dedup _ _ _ _).2 _ (by simp)).1

/-- Sanity checks of the embedded name heuristics against the regexes of
the source. -/
theorem name_heuristic_checks :
    isSpacingName "space-md" = true ∧ isSpacingName "color-red" = false ∧
    isBorderRadiusName "radius-sm" = true ∧ isBorderRadiusName "br-2" = true ∧
    isBorderRadiusName "gap-4" = false ∧ isBorderRadiusName "BorderXRadius" = true := by
  refine ⟨?_, ?_, ?_, ?_, ?_, ?_⟩ <;> decide
